import Mathlib

/-
  Shallow embedding of PetRadar's similarity scoring (app/cv/pet_finder.py),
  candidate ranking (app/services/cv_service.py), match ledger
  (app/repository/match.py) and background-task registry
  (app/services/pets_service.py).

  Modelling conventions:
  - Python floats are idealized as real numbers (ℝ).
  - Python dicts keyed by strings are association lists preserving insertion
    order; dict assignment to a fresh key appends at the end, assignment to an
    existing key updates it in place, exactly as CPython insertion order works.
  - Fallible Python code is embedded in Except PyErr: float division by zero
    raises ZeroDivisionError, a dict subscript with a missing key raises
    KeyError, and attribute resolution of a missing method raises
    AttributeError.
  - The external collaborators imported by the source (geopy's geodesic and
    the wall clock) are passed in as parameters or elided (timing metadata).
  - sklearn's cosine_similarity on two 1-D rows computes
    dot(a,b) / (norm(a) * norm(b)), with a zero-norm row left as zero by its
    normalizer (similarity 0); in ℝ, x / 0 = 0 gives the same value.
-/

set_option maxHeartbeats 2000000
set_option maxRecDepth 8192

namespace PetRadar

noncomputable section
open Classical

/-- Exceptions raised by the embedded Python fragments. -/
inductive PyErr where
  | zeroDivision : PyErr
  | keyErr : String → PyErr
  | attrErr : String → PyErr
deriving DecidableEq

/-- Feature vectors (numpy 1-D float arrays). -/
abbrev Vec := List ℝ

/-- Dot product of two vectors, truncating at the shorter one (the scorer only
applies it to equal-length vectors, after its own dimension check). -/
def dotp : Vec → Vec → ℝ
  | a :: as, b :: bs => a * b + dotp as bs
  | _, _ => 0

/-- sklearn.metrics.pairwise.cosine_similarity of two 1-D rows. -/
def cosine_similarity (a b : Vec) : ℝ :=
  dotp a b / (Real.sqrt (dotp a a) * Real.sqrt (dotp b b))

/-- The pet attribute dictionaries exchanged by the scorer: the breed name
sitting under attributes["breed"]["name"], the color names under
attributes["colors"][i]["name"], and the age and size strings. An absent
field models an absent dict key. -/
structure PetAttrs where
  breed : Option String
  colors : Option (List String)
  estimated_age : Option String
  estimated_size : Option String
deriving DecidableEq

def emptyAttrs : PetAttrs := ⟨none, none, none, none⟩

/-- Python truthiness of the attributes argument: None and the empty dict are
falsy. A dict carrying only keys outside the four recognized ones would be
truthy in Python yet score 0 exactly like the falsy path, so it is not
distinguished here. -/
def truthy : Option PetAttrs → Bool
  | none => false
  | some a =>
      a.breed.isSome || a.colors.isSome ||
      a.estimated_age.isSome || a.estimated_size.isSome

/-- The nested loop over both color lists, breaking at the first shared name. -/
def colorOverlap (cs1 cs2 : List String) : Bool :=
  cs1.any fun c1 => cs2.any fun c2 => c1 == c2

/-- The attribute-matching block of compare_pets: one entry per component
present on both sides (breed 1/0, colors 1/0, age 1/0.5, size 1/0.5); the
final score is attr_score / max(1, count). -/
def attributeParts (a1 a2 : PetAttrs) : List ℝ :=
  (match a1.breed, a2.breed with
   | some b1, some b2 => [if b1 = b2 then (1 : ℝ) else 0]
   | _, _ => []) ++
  (match a1.colors, a2.colors with
   | some c1, some c2 => [if colorOverlap c1 c2 then (1 : ℝ) else 0]
   | _, _ => []) ++
  (match a1.estimated_age, a2.estimated_age with
   | some x, some y => [if x = y then (1 : ℝ) else 0.5]
   | _, _ => []) ++
  (match a1.estimated_size, a2.estimated_size with
   | some x, some y => [if x = y then (1 : ℝ) else 0.5]
   | _, _ => [])

def attributeScore (a1 a2 : PetAttrs) : ℝ :=
  (attributeParts a1 a2).sum / max 1 ((attributeParts a1 a2).length : ℝ)

/-- Latitude/longitude pairs. -/
abbrev GeoPoint := ℝ × ℝ

/-- Location proximity for two present coordinate pairs; geo is the external
geodesic collaborator (geopy), returning kilometers. -/
def locationScore (geo : GeoPoint → GeoPoint → ℝ) (l1 l2 : GeoPoint) : ℝ :=
  max 0 (1 - geo l1 l2 / 50)

/-- Time proximity; dates are modelled as whole-day numbers, so that
(date1 - date2).days is their exact difference. -/
def timeScore (d1 d2 : ℤ) : ℝ :=
  max 0 (1 - (|d1 - d2| : ℝ) / 30)

/-- The component scores dictionary of compare_pets. The Python dict key
"attribute" is a Lean keyword, hence the field name attrScore. -/
structure Scores where
  visual : ℝ
  attrScore : ℝ
  location : ℝ
  time : ℝ
  overall : ℝ
deriving DecidableEq

def zeroScores : Scores := ⟨0, 0, 0, 0, 0⟩

/-- Weight dictionaries: string-keyed association lists. -/
abbrev Weights := List (String × ℝ)

def default_weights : Weights :=
  [("visual", 0.6), ("attribute", 0.2), ("location", 0.1), ("time", 0.1)]

def required_components : List String :=
  ["visual", "attribute", "location", "time"]

/-- The loop adding weights[component] = 0.25 for each missing required
component (dict assignment to a fresh key appends). -/
def fillWeights (w : Weights) : Weights :=
  required_components.foldl
    (fun acc c => if (acc.lookup c).isSome then acc else acc ++ [(c, 0.25)]) w

def sumVals (w : Weights) : ℝ := (w.map Prod.snd).sum

/-- One step of the missing-component fill loop, named for the proofs. -/
def fillStep (acc : Weights) (c : String) : Weights :=
  if (acc.lookup c).isSome then acc else acc ++ [(c, 0.25)]

/-- total = sum(weights.values()); if total != 1, each value is divided by
total in place — for a nonempty dict with total 0 the first division raises
ZeroDivisionError (an empty dict runs an empty loop and raises nothing). -/
def normWeights (w : Weights) : Except PyErr Weights :=
  if sumVals w = 1 then .ok w
  else if sumVals w = 0 ∧ w ≠ [] then .error .zeroDivision
  else .ok (w.map fun kv => (kv.1, kv.2 / sumVals w))

/-- Subscripting the scores dict (which holds exactly the four component keys
at the time the weighted sum runs). -/
def scoreValue (visual attrS locS timeS : ℝ) (k : String) : Option ℝ :=
  if k = "visual" then some visual
  else if k = "attribute" then some attrS
  else if k = "location" then some locS
  else if k = "time" then some timeS
  else none

/-- overall = sum(weights[k] * scores[k] for k in weights); a key outside the
scores dict raises KeyError at its position in insertion order. -/
def overallSum (visual attrS locS timeS : ℝ) : Weights → Except PyErr ℝ
  | [] => .ok 0
  | (k, v) :: rest =>
    match scoreValue visual attrS locS timeS k with
    | none => .error (.keyErr k)
    | some s =>
      match overallSum visual attrS locS timeS rest with
      | .error e => .error e
      | .ok r => .ok (v * s + r)

/-- The attribute-matching block guarded by `if attributes1 and attributes2`:
scores["attribute"] keeps its initial value 0 unless both arguments are
truthy. -/
def pyAttrScore (a1 a2 : Option PetAttrs) : ℝ :=
  if truthy a1 && truthy a2 then
    attributeScore (a1.getD emptyAttrs) (a2.getD emptyAttrs)
  else 0

/-- The location block guarded by `if location1 and location2`. -/
def pyLocScore (geo : GeoPoint → GeoPoint → ℝ) (l1 l2 : Option GeoPoint) : ℝ :=
  match l1, l2 with
  | some p, some q => locationScore geo p q
  | _, _ => 0

/-- The time block guarded by `if date1 and date2`. -/
def pyTimeScore (d1 d2 : Option ℤ) : ℝ :=
  match d1, d2 with
  | some x, some y => timeScore x y
  | _, _ => 0

/-- SimplePetFinder.compare_pets (app/cv/pet_finder.py lines 422-598).
Feature arrays are 1-D vectors (the reshape to one row keeps their length as
shape[1]); a missing argument models Python None. -/
def compare_pets (geo : GeoPoint → GeoPoint → ℝ)
    (features1 features2 : Option Vec)
    (attributes1 attributes2 : Option PetAttrs)
    (location1 location2 : Option GeoPoint)
    (date1 date2 : Option ℤ)
    (weights : Option Weights) : Except PyErr Scores :=
  match features1, features2 with
  | none, _ => .ok zeroScores
  | _, none => .ok zeroScores
  | some f1, some f2 =>
    if f1.length ≠ f2.length then .ok zeroScores
    else
      match normWeights (fillWeights (weights.getD default_weights)) with
      | .error e => .error e
      | .ok w =>
        match overallSum (cosine_similarity f1 f2)
            (pyAttrScore attributes1 attributes2)
            (pyLocScore geo location1 location2)
            (pyTimeScore date1 date2) w with
        | .error e => .error e
        | .ok overall =>
          .ok ⟨cosine_similarity f1 f2, pyAttrScore attributes1 attributes2,
               pyLocScore geo location1 location2, pyTimeScore date1 date2, overall⟩

/-- One ranked comparison entry built by CVService.compare_images. -/
structure Comparison where
  target_index : ℕ
  similarity : Scores
  matching_features : List String
deriving DecidableEq

/-- The search_metadata dict of compare_images; the wall-clock field
processing_time_ms and the constants search_radius_expanded,
similarity_threshold and weights_used are elided. -/
structure SearchMetadata where
  total_candidates_considered : ℕ
  filtered_candidates : ℕ
  error_occurred : Bool
deriving DecidableEq

structure CompareImagesResult where
  comparisons : List Comparison
  search_metadata : SearchMetadata
deriving DecidableEq

/-- location_data = {"source": ..., "targets": [...]}; entries of targets may
themselves be None. -/
structure LocationData where
  source : Option GeoPoint
  targets : List (Option GeoPoint)

/-- date_data = {"source": ..., "targets": [...]}. -/
structure DateData where
  source : Option ℤ
  targets : List (Option ℤ)

/-- targets[i] if targets and i < len(targets) else None. -/
def pickTarget {α : Type} (xs : List (Option α)) (i : ℕ) : Option α :=
  if i < xs.length then (xs.getD i none) else none

/-- The per-candidate location pair: requires location_data, both keys, and a
truthy location_data["source"]. -/
def locPair (ld : Option LocationData) (i : ℕ) : Option GeoPoint × Option GeoPoint :=
  match ld with
  | some d =>
    match d.source with
    | some s => (some s, pickTarget d.targets i)
    | none => (none, none)
  | none => (none, none)

/-- The per-candidate date pair: requires date_data with both keys, but the
source date itself may be None. -/
def datePair (dd : Option DateData) (i : ℕ) : Option ℤ × Option ℤ :=
  match dd with
  | some d => (d.source, pickTarget d.targets i)
  | none => (none, none)

/-- target_attrs_list[i] if target_attrs_list and i < len(...) else None. -/
def pickAttrs (tal : Option (List (Option PetAttrs))) (i : ℕ) : Option PetAttrs :=
  match tal with
  | some l => if i < l.length then l.getD i none else none
  | none => none

/-- CVService configuration: similarity_threshold (settings default 0.6) and
default_weights (settings defaults 0.6/0.2/0.1/0.1). -/
structure CVConfig where
  similarity_threshold : ℝ
  default_weights : Weights

def stdConfig : CVConfig := ⟨0.6, default_weights⟩

/-- Weight preparation in compare_images (lines 142-152): start from the
caller's dict or a copy of the service defaults, fill each missing required
component from the defaults (0.25 when even the default is absent), then
normalize exactly as compare_pets does — the division by a zero total raises
before the surrounding try block and so propagates to the caller. -/
def prepWeights (defaults : Weights) (fw : Option Weights) : Except PyErr Weights :=
  let w0 := fw.getD defaults
  let w1 := required_components.foldl
    (fun acc c =>
      if (acc.lookup c).isSome then acc
      else acc ++ [(c, ((defaults.lookup c).getD 0.25))]) w0
  normWeights w1

/-- The body of one iteration of the candidate loop (lines 193-257): score the
pair, swallow any scoring exception (continue), take matching_features from
pet_finder.get_matching_features — a method SimplePetFinder does not define,
so that call always raises AttributeError and the except branch yields [] —
and keep the candidate only when overall reaches the threshold. -/
def scoreCandidate (geo : GeoPoint → GeoPoint → ℝ) (cfg : CVConfig) (fw : Weights)
    (source : Vec) (source_attrs : Option PetAttrs)
    (target_attrs_list : Option (List (Option PetAttrs)))
    (location_data : Option LocationData) (date_data : Option DateData)
    (i : ℕ) (target : Vec) : Option Comparison :=
  let tAttrs := pickAttrs target_attrs_list i
  let lp := locPair location_data i
  let dp := datePair date_data i
  match compare_pets geo (some source) (some target) source_attrs tAttrs
      lp.1 lp.2 dp.1 dp.2 (some fw) with
  | .error _ => none
  | .ok sim =>
    let mf : List String := []
    if cfg.similarity_threshold ≤ sim.overall then some ⟨i, sim, mf⟩ else none

/-- The candidate loop (for i, target_array in enumerate(target_arrays)). -/
def compareLoop (geo : GeoPoint → GeoPoint → ℝ) (cfg : CVConfig) (fw : Weights)
    (source : Vec) (source_attrs : Option PetAttrs)
    (target_attrs_list : Option (List (Option PetAttrs)))
    (location_data : Option LocationData) (date_data : Option DateData)
    (i : ℕ) : List Vec → List Comparison
  | [] => []
  | t :: ts =>
    match scoreCandidate geo cfg fw source source_attrs target_attrs_list
        location_data date_data i t with
    | some c => c :: compareLoop geo cfg fw source source_attrs target_attrs_list
        location_data date_data (i + 1) ts
    | none => compareLoop geo cfg fw source source_attrs target_attrs_list
        location_data date_data (i + 1) ts

/-- Stable insertion for descending order on overall: an element already in
place stays before the new one only while its key is strictly greater, so
equal keys keep their original relative order — the guarantee of Python's
stable list.sort with reverse=True. -/
def insertDesc (c : Comparison) : List Comparison → List Comparison
  | [] => [c]
  | h :: t =>
    if c.similarity.overall < h.similarity.overall then h :: insertDesc c t
    else c :: h :: t

/-- comparisons.sort(key=lambda x: x["similarity"]["overall"], reverse=True),
modelled as a stable insertion sort. -/
def sortByOverallDesc (l : List Comparison) : List Comparison :=
  l.foldr insertDesc []

/-- CVService.compare_images (app/services/cv_service.py lines 99-292).
Byte decoding via np.frombuffer is elided: feature vectors arrive already
decoded, so every candidate is a valid target and the "no valid target
feature vectors" branch is unreachable here. -/
def compare_images (geo : GeoPoint → GeoPoint → ℝ) (cfg : CVConfig)
    (source_features : Vec) (target_features_list : List Vec)
    (source_attrs : Option PetAttrs)
    (target_attrs_list : Option (List (Option PetAttrs)))
    (location_data : Option LocationData)
    (date_data : Option DateData)
    (feature_weights : Option Weights) : Except PyErr CompareImagesResult :=
  if source_features = [] ∨ target_features_list = [] then
    .ok ⟨[], ⟨target_features_list.length, 0, true⟩⟩
  else
    match prepWeights cfg.default_weights feature_weights with
    | .error e => .error e
    | .ok fw =>
      let comparisons := compareLoop geo cfg fw source_features source_attrs
        target_attrs_list location_data date_data 0 target_features_list
      let sorted := sortByOverallDesc comparisons
      .ok ⟨sorted, ⟨target_features_list.length, sorted.length, false⟩⟩

/-- The slice matches[:max_results] in CVService.format_api_results together
with its per-entry formatting loop; entry contents other than the slice are
irrelevant to the claims and are kept abstract. -/
def format_api_results_comparisons {α : Type} (ms : List α) (max_results : ℕ) : List α :=
  ms.take max_results

/-- A persisted match row (app/models/match.py fields used by the ledger). -/
structure MatchRec where
  lost_pet_id : ℕ
  found_pet_id : ℕ
  similarity : ℝ
  status : String
  matching_features : List String

/-- The matches table, in insertion order; query(...).first() returns the
first row satisfying the filter. -/
abbrev MatchDB := List MatchRec

def keyMatches (lost_pet_id found_pet_id : ℕ) (m : MatchRec) : Bool :=
  m.lost_pet_id == lost_pet_id && m.found_pet_id == found_pet_id

/-- In-place update of the row the query returned: the first row with the
key is replaced, the rest of the table is unchanged. -/
def replaceFirst (p : MatchRec → Bool) (r : MatchRec) : MatchDB → MatchDB
  | [] => []
  | h :: t => if p h then r :: t else h :: replaceFirst p r t

/-- MatchRepository.create_match (app/repository/match.py lines 29-64). -/
def create_match (db : MatchDB) (lost_pet_id found_pet_id : ℕ) (similarity : ℝ)
    (matching_features : List String) : MatchRec × MatchDB :=
  match db.find? (keyMatches lost_pet_id found_pet_id) with
  | some existing =>
    if existing.similarity < similarity then
      let updated : MatchRec :=
        { existing with similarity := similarity, matching_features := matching_features }
      (updated, replaceFirst (keyMatches lost_pet_id found_pet_id) updated db)
    else (existing, db)
  | none =>
    let row : MatchRec := ⟨lost_pet_id, found_pet_id, similarity, "pending", matching_features⟩
    (row, db ++ [row])

/-- The process-wide _background_tasks dict, mapping a task id to the status
field of its record ("running" | "completed" | "failed" | "canceled"); the
timing fields are wall clock and elided. -/
abbrev TaskMap := List (String × String)

/-- Dict assignment _background_tasks[task_id] = {..., "status": st}: an
existing key is updated in place, a fresh key is appended. -/
def setTask (m : TaskMap) (task_id st : String) : TaskMap :=
  if (m.lookup task_id).isSome then
    m.map fun kv => if kv.1 = task_id then (kv.1, st) else kv
  else m ++ [(task_id, st)]

/-- The write at the start of find_matches_for_found_pet_background. -/
def bgStartTask (m : TaskMap) (task_id : String) : TaskMap :=
  setTask m task_id "running"

/-- The unconditional write when the worker body finishes without exception. -/
def bgCompleteTask (m : TaskMap) (task_id : String) : TaskMap :=
  setTask m task_id "completed"

/-- The unconditional write in the except branch of the background wrapper. -/
def bgFailTask (m : TaskMap) (task_id : String) : TaskMap :=
  setTask m task_id "failed"

/-- PetsService.get_background_task_status (lines 447-455), reduced to the
status field: an unknown id yields the distinct sentinel {"status":
"not_found"} rather than raising. -/
def get_background_task_status (m : TaskMap) (task_id : String) : String :=
  match m.lookup task_id with
  | some st => st
  | none => "not_found"

/-- PetsService.cancel_background_task (lines 457-468): returns whether the
cancel took effect, together with the updated map. -/
def cancel_background_task (m : TaskMap) (task_id : String) : Bool × TaskMap :=
  match m.lookup task_id with
  | some st =>
    if st = "running" then (true, setTask m task_id "canceled") else (false, m)
  | none => (false, m)

/-- The task-registry operations that touch a task's status in the source:
the worker wrapper writes running at entry and completed/failed at exit, and
the cancel endpoint may write canceled. -/
inductive TaskOp where
  | submit : String → TaskOp
  | finishOk : String → TaskOp
  | finishErr : String → TaskOp
  | cancel : String → TaskOp

def applyTaskOp (m : TaskMap) : TaskOp → TaskMap
  | .submit id => bgStartTask m id
  | .finishOk id => bgCompleteTask m id
  | .finishErr id => bgFailTask m id
  | .cancel id => (cancel_background_task m id).2

def runTaskOps (m : TaskMap) (ops : List TaskOp) : TaskMap :=
  ops.foldl applyTaskOp m

/-- Methods defined on BaseRepository (app/repository/base.py lines 14-73). -/
def base_repository_methods : List String :=
  ["get", "get_by", "get_multi", "count", "create", "update", "remove"]

/-- Methods defined on MatchRepository (app/repository/match.py lines 14-115)
plus those inherited from BaseRepository. -/
def match_repository_methods : List String :=
  ["get_with_details", "create_match", "update_match_status",
   "get_user_matches", "get_finder_matches"] ++ base_repository_methods

/-- Python attribute resolution of a method on a MatchRepository instance:
a name defined on neither class raises AttributeError. -/
def getattr_match_repo (name : String) : Except PyErr Unit :=
  if name ∈ match_repository_methods then .ok () else .error (.attrErr name)

/-- One entry of the matches list handed to notify_about_matches. -/
structure MatchData where
  pet_id : ℕ
  similarity : ℝ
  matching_features : List String

/-- The observable effects of notify_about_matches: the matches table and the
number of notifications created. -/
structure NotifyState where
  db : MatchDB
  notifications_created : ℕ

/-- One iteration of the loop in PetsService.notify_about_matches (lines
416-445). The try block begins by resolving match_repo.get_by_pet_ids, a
method defined on neither MatchRepository nor BaseRepository, so the
resolution raises AttributeError; the per-match except absorbs it and the
loop continues. The continuation after that call — the dedup check, the
create_match call and the notification — is modelled with the intended
lookup semantics but is unreachable. -/
def notify_one (found_pet_id : ℕ) (st : NotifyState) (md : MatchData) : NotifyState :=
  let attempt : Except PyErr NotifyState :=
    match getattr_match_repo "get_by_pet_ids" with
    | .error e => .error e
    | .ok _ =>
      if (st.db.find? (keyMatches md.pet_id found_pet_id)).isSome then .ok st
      else
        let r := create_match st.db md.pet_id found_pet_id md.similarity md.matching_features
        .ok ⟨r.2, st.notifications_created + 1⟩
  match attempt with
  | .ok st2 => st2
  | .error _ => st

/-- PetsService.notify_about_matches: the loop over the candidate matches. -/
def notify_about_matches (found_pet_id : ℕ) (st : NotifyState)
    (ms : List MatchData) : NotifyState :=
  ms.foldl (notify_one found_pet_id) st

/-- Modelled from the spec: cosine similarity clipped to the unit interval
(negative similarity treated as 0 relevance). -/
def spec_clipped_cosine (a b : Vec) : ℝ :=
  min 1 (max 0 (cosine_similarity a b))

/-- Modelled from the spec (section 4.1): one sub-score per component of
breed, colors, age, size present on both sides — breed 1.0 on exact name
match else 0.0, colors 1.0 on any shared name else 0.0, age and size 1.0 on
equality else 0.5. -/
def specSharedParts (a1 a2 : PetAttrs) : List ℝ :=
  (match a1.breed, a2.breed with
   | some b1, some b2 => [if b1 = b2 then (1 : ℝ) else 0]
   | _, _ => []) ++
  (match a1.colors, a2.colors with
   | some c1, some c2 => [if colorOverlap c1 c2 then (1 : ℝ) else 0]
   | _, _ => []) ++
  (match a1.estimated_age, a2.estimated_age with
   | some x, some y => [if x = y then (1 : ℝ) else 0.5]
   | _, _ => []) ++
  (match a1.estimated_size, a2.estimated_size with
   | some x, some y => [if x = y then (1 : ℝ) else 0.5]
   | _, _ => [])

/-- Modelled from the spec (section 4.1): the attribute score averages the
shared-component sub-scores, and is 0 when no component is shared. -/
def spec_attribute_score (a1 a2 : PetAttrs) : ℝ :=
  if specSharedParts a1 a2 = [] then 0
  else (specSharedParts a1 a2).sum / ((specSharedParts a1 a2).length : ℝ)

/-- The order the ranker guarantees on its output: strictly larger overall
first, and on equal overall the smaller candidate input index first (the
stability guarantee of Python's sort). -/
def rankedBefore (a b : Comparison) : Prop :=
  b.similarity.overall < a.similarity.overall ∨
  (a.similarity.overall = b.similarity.overall ∧ a.target_index < b.target_index)

/-- A caller weight map with nonnegative entries summing to 0. -/
def zeroWeights : Weights :=
  [("visual", 0), ("attribute", 0), ("location", 0), ("time", 0)]

/-- A caller weight map carrying a key outside the four recognized ones. -/
def extraKeyWeights : Weights := [("visual", 1), ("extra", 1)]

/-- The source attributes of the end-to-end scenario in the spec. -/
def exampleSourceAttrs : PetAttrs :=
  ⟨some "Labrador Retriever", some ["black"], some "adult", some "large"⟩

/-- The candidate attributes of the end-to-end scenario: identical except for
the colors list. -/
def exampleCandidateAttrs : PetAttrs :=
  ⟨some "Labrador Retriever", some ["brown"], some "adult", some "large"⟩

theorem dotp_self_nonneg (a : Vec) : 0 ≤ dotp a a := by
  induction a with
  | nil => simp [dotp]
  | cons x as ih => simp only [dotp]; nlinarith [sq_nonneg x]

theorem dotp_sq_le (a : Vec) : ∀ b : Vec, (dotp a b) ^ 2 ≤ dotp a a * dotp b b := by
  induction a with
  | nil => intro b; simp [dotp]
  | cons x as ih =>
    intro b
    cases b with
    | nil => simp [dotp]
    | cons y bs =>
      have h1 := ih bs
      have h2 := dotp_self_nonneg as
      have h3 := dotp_self_nonneg bs
      simp only [dotp]
      have hA : (0 : ℝ) ≤ x ^ 2 * dotp bs bs + y ^ 2 * dotp as as := by positivity
      have key : 2 * (x * y) * dotp as bs ≤ x ^ 2 * dotp bs bs + y ^ 2 * dotp as as := by
        rcases le_or_lt (2 * (x * y) * dotp as bs) 0 with h | h
        · exact h.trans hA
        · have h4 : (2 * (x * y) * dotp as bs) ^ 2 ≤
              (x ^ 2 * dotp bs bs + y ^ 2 * dotp as as) ^ 2 := by
            nlinarith [sq_nonneg (x ^ 2 * dotp bs bs - y ^ 2 * dotp as as),
              mul_nonneg (mul_nonneg (sq_nonneg x) (sq_nonneg y)) (sub_nonneg.2 h1)]
          nlinarith [h4, hA, h]
      nlinarith [key, h1]

theorem abs_dotp_le (a b : Vec) :
    |dotp a b| ≤ Real.sqrt (dotp a a) * Real.sqrt (dotp b b) := by
  have h := dotp_sq_le a b
  have ha := dotp_self_nonneg a
  have hb := dotp_self_nonneg b
  calc |dotp a b| = Real.sqrt ((dotp a b) ^ 2) := (Real.sqrt_sq_eq_abs _).symm
    _ ≤ Real.sqrt (dotp a a * dotp b b) := Real.sqrt_le_sqrt h
    _ = Real.sqrt (dotp a a) * Real.sqrt (dotp b b) := Real.sqrt_mul ha _

theorem abs_cosine_le_one (a b : Vec) : |cosine_similarity a b| ≤ 1 := by
  unfold cosine_similarity
  rcases eq_or_lt_of_le
      (mul_nonneg (Real.sqrt_nonneg (dotp a a)) (Real.sqrt_nonneg (dotp b b)))
    with h | h
  · rw [← h, div_zero, abs_zero]; norm_num
  · rw [abs_div, abs_of_pos h, div_le_one h]
    exact abs_dotp_le a b

theorem cosine_bounds (a b : Vec) :
    -1 ≤ cosine_similarity a b ∧ cosine_similarity a b ≤ 1 :=
  abs_le.mp (abs_cosine_le_one a b)

theorem sum_div_max_bounds (l : List ℝ) (h : ∀ x ∈ l, 0 ≤ x ∧ x ≤ 1) :
    0 ≤ l.sum / max 1 (l.length : ℝ) ∧ l.sum / max 1 (l.length : ℝ) ≤ 1 := by
  have hpos : (0 : ℝ) < max 1 (l.length : ℝ) := lt_max_of_lt_left one_pos
  constructor
  · exact div_nonneg (List.sum_nonneg fun x hx => (h x hx).1) hpos.le
  · rw [div_le_one hpos]
    calc l.sum ≤ l.length • (1 : ℝ) :=
          List.sum_le_card_nsmul l 1 fun x hx => (h x hx).2
      _ = (l.length : ℝ) := by simp
      _ ≤ max 1 (l.length : ℝ) := le_max_right _ _

theorem attributeParts_bounds (a1 a2 : PetAttrs) :
    ∀ x ∈ attributeParts a1 a2, 0 ≤ x ∧ x ≤ 1 := by
  intro x hx
  unfold attributeParts at hx
  simp only [List.mem_append] at hx
  rcases hx with ((h | h) | h) | h
  · revert h
    rcases a1.breed with _ | u <;> rcases a2.breed with _ | v <;> intro h <;>
      simp only [List.mem_singleton, List.not_mem_nil] at h <;> subst h <;>
      split_ifs <;> norm_num
  · revert h
    rcases a1.colors with _ | u <;> rcases a2.colors with _ | v <;> intro h <;>
      simp only [List.mem_singleton, List.not_mem_nil] at h <;> subst h <;>
      split_ifs <;> norm_num
  · revert h
    rcases a1.estimated_age with _ | u <;> rcases a2.estimated_age with _ | v <;> intro h <;>
      simp only [List.mem_singleton, List.not_mem_nil] at h <;> subst h <;>
      split_ifs <;> norm_num
  · revert h
    rcases a1.estimated_size with _ | u <;> rcases a2.estimated_size with _ | v <;> intro h <;>
      simp only [List.mem_singleton, List.not_mem_nil] at h <;> subst h <;>
      split_ifs <;> norm_num

theorem attributeScore_bounds (a1 a2 : PetAttrs) :
    0 ≤ attributeScore a1 a2 ∧ attributeScore a1 a2 ≤ 1 :=
  sum_div_max_bounds _ (attributeParts_bounds a1 a2)

theorem locationScore_bounds (geo : GeoPoint → GeoPoint → ℝ) (l1 l2 : GeoPoint)
    (hd : 0 ≤ geo l1 l2) : 0 ≤ locationScore geo l1 l2 ∧ locationScore geo l1 l2 ≤ 1 := by
  unfold locationScore
  constructor
  · exact le_max_left 0 _
  · apply max_le (by norm_num)
    have : 0 ≤ geo l1 l2 / 50 := by positivity
    linarith

theorem timeScore_bounds (d1 d2 : ℤ) : 0 ≤ timeScore d1 d2 ∧ timeScore d1 d2 ≤ 1 := by
  unfold timeScore
  constructor
  · exact le_max_left 0 _
  · apply max_le (by norm_num)
    have h : (0 : ℝ) ≤ |(d1 : ℝ) - (d2 : ℝ)| / 30 := by positivity
    linarith

theorem sumVals_nonneg (w : Weights) (h : ∀ kv ∈ w, 0 ≤ kv.2) : 0 ≤ sumVals w := by
  unfold sumVals
  exact List.sum_nonneg fun x hx => by
    obtain ⟨kv, hkv, rfl⟩ := List.mem_map.mp hx
    exact h kv hkv

theorem sumVals_map_div (w : Weights) (t : ℝ) :
    sumVals (w.map fun kv => (kv.1, kv.2 / t)) = sumVals w / t := by
  induction w with
  | nil => simp [sumVals]
  | cons kv rest ih =>
    simp only [sumVals, List.map_cons, List.sum_cons] at *
    rw [ih, add_div]

theorem map_fst_map_div (w : Weights) (t : ℝ) :
    ((w.map fun kv => (kv.1, kv.2 / t)).map Prod.fst) = w.map Prod.fst := by
  induction w with
  | nil => rfl
  | cons kv rest ih => simp_all

theorem normWeights_ok_sum (w w2 : Weights) (hne : w ≠ [])
    (hok : normWeights w = .ok w2) : sumVals w2 = 1 := by
  unfold normWeights at hok
  split_ifs at hok with h1 h2
  · cases hok; exact h1
  · cases hok
    rw [sumVals_map_div]
    have ht : sumVals w ≠ 0 := fun h0 => h2 ⟨h0, hne⟩
    field_simp

theorem normWeights_keys (w w2 : Weights) (hok : normWeights w = .ok w2) :
    w2.map Prod.fst = w.map Prod.fst := by
  unfold normWeights at hok
  split_ifs at hok with h1 h2
  · cases hok; rfl
  · cases hok; exact map_fst_map_div w (sumVals w)

theorem normWeights_nonneg (w w2 : Weights) (hv : ∀ kv ∈ w, 0 ≤ kv.2)
    (hok : normWeights w = .ok w2) : ∀ kv ∈ w2, 0 ≤ kv.2 := by
  unfold normWeights at hok
  split_ifs at hok with h1 h2
  · cases hok; exact hv
  · cases hok
    intro kv hkv
    obtain ⟨kv0, hkv0, rfl⟩ := List.mem_map.mp hkv
    rcases eq_or_ne w [] with rfl | hne
    · cases hkv0
    · have ht : sumVals w ≠ 0 := fun h0 => h2 ⟨h0, hne⟩
      have hpos : 0 < sumVals w := lt_of_le_of_ne (sumVals_nonneg w hv) (Ne.symm ht)
      exact div_nonneg (hv kv0 hkv0) hpos.le

theorem fillWeights_eq_foldl (w : Weights) :
    fillWeights w = required_components.foldl fillStep w := rfl

theorem fill_go_preserves (P : String × ℝ → Prop) (cs : List String)
    (hP : ∀ c ∈ cs, P (c, 0.25)) (w : Weights) (hw : ∀ kv ∈ w, P kv) :
    ∀ kv ∈ cs.foldl fillStep w, P kv := by
  induction cs generalizing w with
  | nil => exact hw
  | cons c rest ih =>
    intro kv hkv
    refine ih (fun x hx => hP x (List.mem_cons_of_mem c hx)) (fillStep w c) ?_ kv hkv
    intro kv2 hkv2
    unfold fillStep at hkv2
    split_ifs at hkv2
    · exact hw kv2 hkv2
    · rcases List.mem_append.mp hkv2 with h | h
      · exact hw kv2 h
      · simp only [List.mem_singleton] at h
        subst h
        exact hP c (List.mem_cons_self c rest)

theorem fillWeights_nonneg (w : Weights) (hw : ∀ kv ∈ w, 0 ≤ kv.2) :
    ∀ kv ∈ fillWeights w, 0 ≤ kv.2 := by
  rw [fillWeights_eq_foldl]
  exact fill_go_preserves (fun kv => 0 ≤ kv.2) required_components
    (fun c _ => by norm_num) w hw

theorem fillWeights_keys (w : Weights) (hw : ∀ kv ∈ w, kv.1 ∈ required_components) :
    ∀ kv ∈ fillWeights w, kv.1 ∈ required_components := by
  rw [fillWeights_eq_foldl]
  exact fill_go_preserves (fun kv => kv.1 ∈ required_components) required_components
    (fun c hc => hc) w hw

theorem fill_go_length (cs : List String) : ∀ w : Weights,
    w.length ≤ (cs.foldl fillStep w).length := by
  induction cs with
  | nil => intro w; simp
  | cons c rest ih =>
    intro w
    refine le_trans ?_ (ih (fillStep w c))
    unfold fillStep
    split_ifs
    · exact le_refl _
    · simp

theorem fillWeights_ne_nil (w : Weights) : fillWeights w ≠ [] := by
  rcases w with _ | ⟨kv, t⟩
  · intro h
    rw [fillWeights_eq_foldl] at h
    have h1 : required_components.foldl fillStep [] =
        (["attribute", "location", "time"] : List String).foldl fillStep
          [("visual", 0.25)] := by
      simp [required_components, List.foldl, fillStep, List.lookup]
    have h2 := fill_go_length ["attribute", "location", "time"] [("visual", 0.25)]
    rw [h1] at h
    rw [h] at h2
    simp at h2
  · intro h
    have h2 := fill_go_length required_components (kv :: t)
    rw [fillWeights_eq_foldl] at h
    rw [h] at h2
    simp at h2

theorem scoreValue_isSome_of_mem (v a l t : ℝ) (k : String)
    (hk : k ∈ required_components) : (scoreValue v a l t k).isSome := by
  simp only [required_components, List.mem_cons, List.not_mem_nil, or_false] at hk
  rcases hk with rfl | rfl | rfl | rfl <;> simp [scoreValue]

theorem scoreValue_bounds (v a l t : ℝ) (k : String) (s : ℝ)
    (hv : -1 ≤ v ∧ v ≤ 1) (ha : -1 ≤ a ∧ a ≤ 1) (hl : -1 ≤ l ∧ l ≤ 1)
    (ht : -1 ≤ t ∧ t ≤ 1) (hs : scoreValue v a l t k = some s) :
    -1 ≤ s ∧ s ≤ 1 := by
  unfold scoreValue at hs
  split_ifs at hs <;> cases hs <;> assumption

theorem overallSum_ok_of_keys (v a l t : ℝ) (w : Weights)
    (hk : ∀ kv ∈ w, kv.1 ∈ required_components) :
    ∃ o, overallSum v a l t w = .ok o := by
  induction w with
  | nil => exact ⟨0, rfl⟩
  | cons kv rest ih =>
    obtain ⟨o, ho⟩ := ih fun x hx => hk x (List.mem_cons_of_mem kv hx)
    obtain ⟨s, hs⟩ := Option.isSome_iff_exists.mp
      (scoreValue_isSome_of_mem v a l t kv.1 (hk kv (List.mem_cons_self kv rest)))
    refine ⟨kv.2 * s + o, ?_⟩
    rcases kv with ⟨k, x⟩
    simp only [overallSum]
    rw [hs, ho]

theorem overallSum_bounds (v a l t : ℝ)
    (hv : -1 ≤ v ∧ v ≤ 1) (ha : -1 ≤ a ∧ a ≤ 1) (hl : -1 ≤ l ∧ l ≤ 1)
    (ht : -1 ≤ t ∧ t ≤ 1) :
    ∀ (w : Weights) (o : ℝ), (∀ kv ∈ w, 0 ≤ kv.2) →
      overallSum v a l t w = .ok o → -(sumVals w) ≤ o ∧ o ≤ sumVals w := by
  intro w
  induction w with
  | nil => intro o _ hok; cases hok; simp [sumVals]
  | cons kv rest ih =>
    intro o hw hok
    rcases kv with ⟨k, x⟩
    simp only [overallSum] at hok
    rcases hsv : scoreValue v a l t k with _ | s
    · rw [hsv] at hok; cases hok
    · rw [hsv] at hok
      rcases hrest : overallSum v a l t rest with e | r
      · rw [hrest] at hok; cases hok
      · rw [hrest] at hok
        cases hok
        have hx : 0 ≤ x := hw (k, x) (List.mem_cons_self _ _)
        have hsb := scoreValue_bounds v a l t k s hv ha hl ht hsv
        have hr := ih r (fun kv2 hkv2 => hw kv2 (List.mem_cons_of_mem _ hkv2)) hrest
        have h1 : x * s ≤ x := by nlinarith [hsb.2, hx]
        have h2 : -x ≤ x * s := by nlinarith [hsb.1, hx]
        simp only [sumVals, List.map_cons, List.sum_cons] at *
        constructor <;> nlinarith [hr.1, hr.2]

theorem pyAttrScore_bounds (a1 a2 : Option PetAttrs) :
    0 ≤ pyAttrScore a1 a2 ∧ pyAttrScore a1 a2 ≤ 1 := by
  unfold pyAttrScore
  split_ifs
  · exact attributeScore_bounds _ _
  · norm_num

theorem pyLocScore_bounds (geo : GeoPoint → GeoPoint → ℝ)
    (hgeo : ∀ p q, 0 ≤ geo p q) (l1 l2 : Option GeoPoint) :
    0 ≤ pyLocScore geo l1 l2 ∧ pyLocScore geo l1 l2 ≤ 1 := by
  unfold pyLocScore
  rcases l1 with _ | p <;> rcases l2 with _ | q <;> simp only
  · norm_num
  · norm_num
  · norm_num
  · exact locationScore_bounds geo p q (hgeo p q)

theorem pyTimeScore_bounds (d1 d2 : Option ℤ) :
    0 ≤ pyTimeScore d1 d2 ∧ pyTimeScore d1 d2 ≤ 1 := by
  unfold pyTimeScore
  rcases d1 with _ | x <;> rcases d2 with _ | y <;> simp only
  · norm_num
  · norm_num
  · norm_num
  · exact timeScore_bounds x y

theorem compare_pets_main (geo : GeoPoint → GeoPoint → ℝ) (f1 f2 : Vec)
    (a1 a2 : Option PetAttrs) (l1 l2 : Option GeoPoint) (d1 d2 : Option ℤ)
    (wopt : Option Weights) (hlen : f1.length = f2.length) :
    compare_pets geo (some f1) (some f2) a1 a2 l1 l2 d1 d2 wopt =
      match normWeights (fillWeights (wopt.getD default_weights)) with
      | .error e => .error e
      | .ok w =>
        match overallSum (cosine_similarity f1 f2) (pyAttrScore a1 a2)
            (pyLocScore geo l1 l2) (pyTimeScore d1 d2) w with
        | .error e => .error e
        | .ok o => .ok ⟨cosine_similarity f1 f2, pyAttrScore a1 a2,
            pyLocScore geo l1 l2, pyTimeScore d1 d2, o⟩ := by
  unfold compare_pets
  dsimp only
  rw [if_neg (fun hC => hC hlen)]

/-- C1 (amended): for equal-dimension feature vectors, a nonnegative weight
map and a nonnegative distance collaborator, every successfully returned
ComparisonResult has attribute, location and time components in [0,1] and
overall in [-1,1]; the visual component equals the raw (unclipped) cosine
similarity of the two vectors and therefore lies in [-1,1] — a negative
cosine similarity is passed through rather than mapped to 0. -/
theorem claim_C1_amended (geo : GeoPoint → GeoPoint → ℝ)
    (hgeo : ∀ p q, 0 ≤ geo p q) (f1 f2 : Vec) (hlen : f1.length = f2.length)
    (a1 a2 : Option PetAttrs) (l1 l2 : Option GeoPoint) (d1 d2 : Option ℤ)
    (w : Weights) (hw : ∀ kv ∈ w, 0 ≤ kv.2) (s : Scores)
    (hok : compare_pets geo (some f1) (some f2) a1 a2 l1 l2 d1 d2 (some w) = .ok s) :
    s.visual = cosine_similarity f1 f2 ∧
    (-1 ≤ s.visual ∧ s.visual ≤ 1) ∧
    (0 ≤ s.attrScore ∧ s.attrScore ≤ 1) ∧
    (0 ≤ s.location ∧ s.location ≤ 1) ∧
    (0 ≤ s.time ∧ s.time ≤ 1) ∧
    (-1 ≤ s.overall ∧ s.overall ≤ 1) := by
  rw [compare_pets_main geo f1 f2 a1 a2 l1 l2 d1 d2 (some w) hlen] at hok
  simp only [Option.getD_some] at hok
  rcases hnw : normWeights (fillWeights w) with e | w2
  · rw [hnw] at hok; cases hok
  · rw [hnw] at hok
    dsimp only at hok
    rcases hov : overallSum (cosine_similarity f1 f2) (pyAttrScore a1 a2)
        (pyLocScore geo l1 l2) (pyTimeScore d1 d2) w2 with e | o
    · rw [hov] at hok; cases hok
    · rw [hov] at hok
      dsimp only at hok
      cases hok
      have hA := pyAttrScore_bounds a1 a2
      have hL := pyLocScore_bounds geo hgeo l1 l2
      have hT := pyTimeScore_bounds d1 d2
      have hV := cosine_bounds f1 f2
      refine ⟨rfl, hV, hA, hL, hT, ?_⟩
      have hnn := normWeights_nonneg _ w2 (fillWeights_nonneg w hw) hnw
      have hsum := normWeights_ok_sum _ w2 (fillWeights_ne_nil w) hnw
      have hb := overallSum_bounds (cosine_similarity f1 f2) (pyAttrScore a1 a2)
        (pyLocScore geo l1 l2) (pyTimeScore d1 d2) hV
        ⟨by linarith [hA.1], hA.2⟩ ⟨by linarith [hL.1], hL.2⟩
        ⟨by linarith [hT.1], hT.2⟩ w2 o hnn hov
      rw [hsum] at hb
      exact hb

theorem fillWeights_default : fillWeights default_weights = default_weights := rfl

theorem normWeights_default : normWeights default_weights = .ok default_weights := by
  unfold normWeights
  rw [if_pos]
  norm_num [sumVals, default_weights]

theorem overallSum_default (v a l t : ℝ) :
    overallSum v a l t default_weights =
      .ok (0.6 * v + (0.2 * a + (0.1 * l + (0.1 * t + 0)))) := rfl

/-- Evaluation of compare_pets on equal-length vectors with no attributes,
locations, dates or caller weights. -/
theorem compare_pets_eval_plain (geo : GeoPoint → GeoPoint → ℝ) (f1 f2 : Vec)
    (hlen : f1.length = f2.length) :
    compare_pets geo (some f1) (some f2) none none none none none none none =
      .ok ⟨cosine_similarity f1 f2, 0, 0, 0, 0.6 * cosine_similarity f1 f2⟩ := by
  rw [compare_pets_main geo f1 f2 none none none none none none none hlen]
  simp only [Option.getD_none]
  rw [fillWeights_default, normWeights_default]
  dsimp only
  rw [overallSum_default]
  dsimp only
  norm_num [pyAttrScore, pyLocScore, pyTimeScore, truthy]

theorem cosine_one_one : cosine_similarity [1] [1] = 1 := by
  norm_num [cosine_similarity, dotp, Real.sqrt_one]

theorem cosine_one_negone : cosine_similarity [1] [-1] = -1 := by
  norm_num [cosine_similarity, dotp, Real.sqrt_one]

/-- C1 is false as stated: on the one-dimensional vectors [1] and [-1] the
scorer returns visual = -1 and overall = -0.6, both outside [0,1], and the
visual component differs from the spec's clipped cosine similarity, which
would be 0. -/
theorem claim_C1_counterexample :
    compare_pets (fun _ _ => 0) (some [1]) (some [-1]) none none none none
      none none none = .ok ⟨-1, 0, 0, 0, -0.6⟩ ∧
    ¬ (0 ≤ (-1 : ℝ)) ∧ ¬ (0 ≤ (-0.6 : ℝ)) ∧
    spec_clipped_cosine [1] [-1] = 0 ∧
    (-1 : ℝ) ≠ spec_clipped_cosine [1] [-1] := by
  have h := compare_pets_eval_plain (fun _ _ => 0) [1] [-1] rfl
  rw [cosine_one_negone] at h
  rw [show (0.6 : ℝ) * -1 = -0.6 by norm_num] at h
  refine ⟨h, by norm_num, by norm_num, ?_, ?_⟩
  · unfold spec_clipped_cosine
    rw [cosine_one_negone]
    norm_num
  · unfold spec_clipped_cosine
    rw [cosine_one_negone]
    norm_num

/-- Evaluation of compare_pets when the default weight dictionary is passed
explicitly. -/
theorem compare_pets_eval_defaultw (geo : GeoPoint → GeoPoint → ℝ) (f1 f2 : Vec)
    (hlen : f1.length = f2.length) :
    compare_pets geo (some f1) (some f2) none none none none none none
      (some default_weights) =
      .ok ⟨cosine_similarity f1 f2, 0, 0, 0, 0.6 * cosine_similarity f1 f2⟩ := by
  rw [compare_pets_main geo f1 f2 none none none none none none
    (some default_weights) hlen]
  simp only [Option.getD_some]
  rw [fillWeights_default, normWeights_default]
  dsimp only
  rw [overallSum_default]
  dsimp only
  norm_num [pyAttrScore, pyLocScore, pyTimeScore, truthy]

theorem claim_C1_witness :
    (⟨1, 0, 0, 0, 0.6⟩ : Scores).visual = cosine_similarity [1] [1] ∧
    (-1 ≤ (⟨1, 0, 0, 0, 0.6⟩ : Scores).visual ∧ (⟨1, 0, 0, 0, 0.6⟩ : Scores).visual ≤ 1) ∧
    (0 ≤ (⟨1, 0, 0, 0, 0.6⟩ : Scores).attrScore ∧ (⟨1, 0, 0, 0, 0.6⟩ : Scores).attrScore ≤ 1) ∧
    (0 ≤ (⟨1, 0, 0, 0, 0.6⟩ : Scores).location ∧ (⟨1, 0, 0, 0, 0.6⟩ : Scores).location ≤ 1) ∧
    (0 ≤ (⟨1, 0, 0, 0, 0.6⟩ : Scores).time ∧ (⟨1, 0, 0, 0, 0.6⟩ : Scores).time ≤ 1) ∧
    (-1 ≤ (⟨1, 0, 0, 0, 0.6⟩ : Scores).overall ∧ (⟨1, 0, 0, 0, 0.6⟩ : Scores).overall ≤ 1) := by
  have hok : compare_pets (fun _ _ => 0) (some [1]) (some [1]) none none none
      none none none (some default_weights) = .ok ⟨1, 0, 0, 0, 0.6⟩ := by
    have h := compare_pets_eval_defaultw (fun _ _ => 0) [1] [1] rfl
    rw [cosine_one_one] at h
    rw [show (0.6 : ℝ) * 1 = 0.6 by norm_num] at h
    exact h
  exact claim_C1_amended (fun _ _ => 0) (fun p q => le_refl 0) [1] [1] rfl
    none none none none none none default_weights
    (by
      intro kv hkv
      simp only [default_weights, List.mem_cons, List.not_mem_nil, or_false] at hkv
      rcases hkv with rfl | rfl | rfl | rfl <;> norm_num) ⟨1, 0, 0, 0, 0.6⟩ hok

theorem notify_one_id (found_pet_id : ℕ) (st : NotifyState) (md : MatchData) :
    notify_one found_pet_id st md = st := by
  unfold notify_one getattr_match_repo
  rw [if_neg]
  · simp [match_repository_methods, base_repository_methods]

/-- C2: for every non-empty candidate list handed to notify_about_matches, no
match record and no notification is ever created: each iteration begins by
resolving match_repo.get_by_pet_ids, which is defined on neither
MatchRepository nor BaseRepository and therefore raises AttributeError, and
the per-match handler absorbs it, so the table and the notification count
come back unchanged. -/
theorem claim_C2 (found_pet_id : ℕ) (st : NotifyState) (ms : List MatchData)
    (hne : ms ≠ []) :
    getattr_match_repo "get_by_pet_ids" = .error (.attrErr "get_by_pet_ids") ∧
    notify_about_matches found_pet_id st ms = st := by
  constructor
  · unfold getattr_match_repo
    rw [if_neg]
    simp [match_repository_methods, base_repository_methods]
  · clear hne
    unfold notify_about_matches
    induction ms generalizing st with
    | nil => rfl
    | cons md rest ih =>
      rw [List.foldl_cons, notify_one_id found_pet_id st md]
      exact ih st

theorem normWeights_ok_of_sum_ne (w : Weights) (h : sumVals w ≠ 0) :
    ∃ w2, normWeights w = .ok w2 := by
  unfold normWeights
  split_ifs with h1 h2
  · exact ⟨w, rfl⟩
  · exact absurd h2.1 h
  · exact ⟨_, rfl⟩

/-- C3 is false as stated: two failing weight maps on equal-dimension inputs.
A caller map with nonnegative entries summing to 0 hits the in-place
normalization division and raises ZeroDivisionError, and a caller map with
the unrecognized key "extra" raises KeyError when the weighted sum subscripts
the scores dict. -/
theorem claim_C3_counterexample :
    compare_pets (fun _ _ => 0) (some [1]) (some [1]) none none none none
      none none (some zeroWeights) = .error .zeroDivision ∧
    (∀ kv ∈ zeroWeights, 0 ≤ kv.2) ∧
    compare_pets (fun _ _ => 0) (some [1]) (some [1]) none none none none
      none none (some extraKeyWeights) = .error (.keyErr "extra") := by
  refine ⟨?_, ?_, ?_⟩
  · rw [compare_pets_main (fun _ _ => 0) [1] [1] none none none none none none
      (some zeroWeights) rfl]
    simp only [Option.getD_some]
    rw [show fillWeights zeroWeights = zeroWeights from rfl]
    unfold normWeights
    rw [if_neg (by norm_num [sumVals, zeroWeights]),
        if_pos ⟨by norm_num [sumVals, zeroWeights], by simp [zeroWeights]⟩]
  · intro kv hkv
    simp only [zeroWeights, List.mem_cons, List.not_mem_nil, or_false] at hkv
    rcases hkv with rfl | rfl | rfl | rfl <;> norm_num
  · rw [compare_pets_main (fun _ _ => 0) [1] [1] none none none none none none
      (some extraKeyWeights) rfl]
    simp only [Option.getD_some]
    rw [show fillWeights extraKeyWeights =
      [("visual", 1), ("extra", 1), ("attribute", 0.25), ("location", 0.25),
       ("time", 0.25)] from rfl]
    unfold normWeights
    rw [if_neg (by norm_num [sumVals]), if_neg (by norm_num [sumVals])]
    rfl

/-- C3 (amended): for equal-dimension feature vectors the scorer terminates
without an exception provided the caller weight map (or the default map when
none is given) uses only the four recognized component keys and, after the
missing components are filled in, its entries do not sum to 0; in those runs
every missing-data case (absent attribute dicts, locations or dates)
degrades to a 0 sub-score instead of raising. A zero-sum weight map raises
ZeroDivisionError and an unrecognized weight key raises KeyError. -/
theorem claim_C3_amended (geo : GeoPoint → GeoPoint → ℝ) (f1 f2 : Vec)
    (hlen : f1.length = f2.length) (a1 a2 : Option PetAttrs)
    (l1 l2 : Option GeoPoint) (d1 d2 : Option ℤ) (wopt : Option Weights)
    (hkeys : ∀ kv ∈ wopt.getD default_weights, kv.1 ∈ required_components)
    (hsum : sumVals (fillWeights (wopt.getD default_weights)) ≠ 0) :
    ∃ s, compare_pets geo (some f1) (some f2) a1 a2 l1 l2 d1 d2 wopt = .ok s ∧
      ((truthy a1 && truthy a2) = false → s.attrScore = 0) ∧
      (l1 = none ∨ l2 = none → s.location = 0) ∧
      (d1 = none ∨ d2 = none → s.time = 0) := by
  rw [compare_pets_main geo f1 f2 a1 a2 l1 l2 d1 d2 wopt hlen]
  obtain ⟨w2, hw2⟩ := normWeights_ok_of_sum_ne _ hsum
  rw [hw2]
  dsimp only
  have hkeys2 : ∀ kv ∈ w2, kv.1 ∈ required_components := by
    intro kv hkv
    have hmem : kv.1 ∈ w2.map Prod.fst := List.mem_map_of_mem Prod.fst hkv
    rw [normWeights_keys _ w2 hw2] at hmem
    obtain ⟨kv0, hkv0, hfst⟩ := List.mem_map.mp hmem
    rw [← hfst]
    exact fillWeights_keys _ hkeys kv0 hkv0
  obtain ⟨o, ho⟩ := overallSum_ok_of_keys (cosine_similarity f1 f2)
    (pyAttrScore a1 a2) (pyLocScore geo l1 l2) (pyTimeScore d1 d2) w2 hkeys2
  rw [ho]
  dsimp only
  refine ⟨_, rfl, ?_, ?_, ?_⟩
  · intro hfalse
    unfold pyAttrScore
    rw [hfalse]
    simp
  · intro hnone
    unfold pyLocScore
    rcases hnone with rfl | rfl
    · rfl
    · rcases l1 with _ | p <;> rfl
  · intro hnone
    unfold pyTimeScore
    rcases hnone with rfl | rfl
    · rfl
    · rcases d1 with _ | x <;> rfl

theorem claim_C3_witness :
    (∀ kv ∈ (none : Option Weights).getD default_weights,
        kv.1 ∈ required_components) ∧
    sumVals (fillWeights ((none : Option Weights).getD default_weights)) ≠ 0 ∧
    (∃ s, compare_pets (fun _ _ => 0) (some [1]) (some [1]) none none none none
        none none none = .ok s ∧
      ((truthy none && truthy none) = false → s.attrScore = 0) ∧
      ((none : Option GeoPoint) = none ∨ (none : Option GeoPoint) = none →
        s.location = 0) ∧
      ((none : Option ℤ) = none ∨ (none : Option ℤ) = none → s.time = 0)) := by
  refine ⟨?_, ?_, ?_⟩
  · intro kv hkv
    simp only [Option.getD_none, default_weights, List.mem_cons,
      List.not_mem_nil, or_false] at hkv
    rcases hkv with rfl | rfl | rfl | rfl <;> simp [required_components]
  · rw [show ((none : Option Weights).getD default_weights) = default_weights
      from rfl, fillWeights_default]
    norm_num [sumVals, default_weights]
  · exact claim_C3_amended (fun _ _ => 0) [1] [1] rfl none none none none
      none none none
      (by
        intro kv hkv
        simp only [Option.getD_none, default_weights, List.mem_cons,
          List.not_mem_nil, or_false] at hkv
        rcases hkv with rfl | rfl | rfl | rfl <;> simp [required_components])
      (by
        rw [show ((none : Option Weights).getD default_weights) = default_weights
          from rfl, fillWeights_default]
        norm_num [sumVals, default_weights])

theorem lookup_map_set_self (m : TaskMap) (id st : String)
    (hs : (m.lookup id).isSome) :
    ((m.map fun kv => if kv.1 = id then (kv.1, st) else kv).lookup id) = some st := by
  induction m with
  | nil => simp [List.lookup] at hs
  | cons kv t ih =>
    rcases kv with ⟨k, v⟩
    by_cases hk : id = k
    · subst hk
      rw [List.map_cons]
      rw [show (if ((id, v) : String × String).1 = id then
          (((id, v) : String × String).1, st) else (id, v)) = (id, st)
        from if_pos rfl]
      simp [List.lookup]
    · have hbeq : (id == k) = false := beq_eq_false_iff_ne.mpr hk
      rw [List.map_cons]
      rw [show (if (k, v).1 = id then ((k, v).1, st) else (k, v)) = (k, v)
        from if_neg (Ne.symm hk)]
      simp only [List.lookup, hbeq] at *
      exact ih hs

theorem lookup_map_set_other (m : TaskMap) (id id2 st : String) (h : id2 ≠ id) :
    ((m.map fun kv => if kv.1 = id then (kv.1, st) else kv).lookup id2) =
      m.lookup id2 := by
  induction m with
  | nil => rfl
  | cons kv t ih =>
    rcases kv with ⟨k, v⟩
    rw [List.map_cons]
    by_cases hk : k = id
    · subst hk
      have hbeq : (id2 == k) = false := beq_eq_false_iff_ne.mpr h
      rw [show (if (k, v).1 = k then ((k, v).1, st) else (k, v)) = (k, st)
        from if_pos rfl]
      simp [List.lookup, hbeq, ih]
    · rw [show (if (k, v).1 = id then ((k, v).1, st) else (k, v)) = (k, v)
        from if_neg hk]
      by_cases hk2 : id2 = k
      · subst hk2
        simp [List.lookup]
      · have hbeq2 : (id2 == k) = false := beq_eq_false_iff_ne.mpr hk2
        simp [List.lookup, hbeq2, ih]

theorem lookup_append_single_self (m : TaskMap) (id st : String)
    (hn : m.lookup id = none) : ((m ++ [(id, st)]).lookup id) = some st := by
  induction m with
  | nil => simp [List.lookup]
  | cons kv t ih =>
    rcases kv with ⟨k, v⟩
    by_cases hk : id = k
    · subst hk
      simp [List.lookup] at hn
    · have hbeq : (id == k) = false := beq_eq_false_iff_ne.mpr hk
      simp only [List.lookup, hbeq, List.cons_append] at *
      exact ih hn

theorem lookup_append_single_other (m : TaskMap) (id id2 st : String)
    (h : id2 ≠ id) : ((m ++ [(id, st)]).lookup id2) = m.lookup id2 := by
  induction m with
  | nil =>
    have hbeq : (id2 == id) = false := beq_eq_false_iff_ne.mpr h
    simp [List.lookup, hbeq]
  | cons kv t ih =>
    rcases kv with ⟨k, v⟩
    by_cases hk2 : id2 = k
    · subst hk2
      simp [List.lookup]
    · have hbeq2 : (id2 == k) = false := beq_eq_false_iff_ne.mpr hk2
      simp only [List.lookup, hbeq2, List.cons_append] at *
      exact ih

theorem lookup_setTask_self (m : TaskMap) (id st : String) :
    (setTask m id st).lookup id = some st := by
  unfold setTask
  split_ifs with h
  · exact lookup_map_set_self m id st h
  · exact lookup_append_single_self m id st
      (Option.not_isSome_iff_eq_none.mp h)

theorem lookup_setTask_other (m : TaskMap) (id id2 st : String) (h : id2 ≠ id) :
    (setTask m id st).lookup id2 = m.lookup id2 := by
  unfold setTask
  split_ifs
  · exact lookup_map_set_other m id id2 st h
  · exact lookup_append_single_other m id id2 st h

/-- C9: a status query for an unknown id returns the distinct not_found
sentinel rather than raising; cancel succeeds exactly when a record exists
with status running, in which case the status becomes canceled; any other
cancel returns false and leaves the whole map unchanged. -/
theorem claim_C9 (m : TaskMap) (task_id : String) :
    (m.lookup task_id = none →
      get_background_task_status m task_id = "not_found") ∧
    ((cancel_background_task m task_id).1 = true ↔
      m.lookup task_id = some "running") ∧
    (m.lookup task_id = some "running" →
      get_background_task_status (cancel_background_task m task_id).2 task_id =
        "canceled") ∧
    ((cancel_background_task m task_id).1 = false →
      (cancel_background_task m task_id).2 = m) := by
  refine ⟨?_, ?_, ?_, ?_⟩
  · intro hn
    unfold get_background_task_status
    rw [hn]
  · unfold cancel_background_task
    rcases hl : m.lookup task_id with _ | st
    · simp
    · dsimp only
      by_cases hst : st = "running"
      · subst hst
        simp
      · rw [if_neg hst]
        simp
        intro habs
        exact absurd habs hst
  · intro hl
    unfold cancel_background_task
    rw [hl]
    dsimp only
    rw [if_pos rfl]
    unfold get_background_task_status
    rw [lookup_setTask_self]
  · unfold cancel_background_task
    rcases hl : m.lookup task_id with _ | st
    · intro _; rfl
    · dsimp only
      by_cases hst : st = "running"
      · subst hst
        rw [if_pos rfl]
        intro habs
        cases habs
      · rw [if_neg hst]
        intro _
        rfl

theorem claim_C9_witness :
    (([] : TaskMap).lookup "unknown" = none ∧
      get_background_task_status ([] : TaskMap) "unknown" = "not_found") ∧
    ((cancel_background_task [("t", "running")] "t").1 = true ∧
      get_background_task_status (cancel_background_task [("t", "running")] "t").2
        "t" = "canceled") ∧
    ((cancel_background_task [("t", "completed")] "t").1 = false ∧
      (cancel_background_task [("t", "completed")] "t").2 = [("t", "completed")]) ∧
    (cancel_background_task ([] : TaskMap) "unknown").1 = false := by
  have h1 := claim_C9 [] "unknown"
  have h2 := claim_C9 [("t", "running")] "t"
  exact ⟨⟨rfl, h1.1 rfl⟩, ⟨h2.2.1.mpr rfl, h2.2.2.1 rfl⟩,
    ⟨by decide, by decide⟩, by decide⟩

/-- C4 is false as stated: a task canceled while its work is still running is
overwritten to completed when the worker finishes — after submit, cancel and
finishOk the recorded status is completed, not canceled. -/
theorem claim_C4_counterexample :
    get_background_task_status
      (runTaskOps [] [.submit "t", .cancel "t"]) "t" = "canceled" ∧
    get_background_task_status
      (runTaskOps [] [.submit "t", .cancel "t", .finishOk "t"]) "t" =
        "completed" ∧
    ("completed" : String) ≠ "canceled" := by
  refine ⟨rfl, rfl, by decide⟩

/-- C4 (amended): a completed or failed status is never changed by any cancel
operation — cancel on such a task returns false and leaves the map untouched,
and cancelling another id leaves this record alone — but canceled is not
final: the worker's unconditional exit write overwrites a canceled status
with completed (or failed). -/
theorem claim_C4_amended (m : TaskMap) (id : String)
    (hterm : get_background_task_status m id = "completed" ∨
      get_background_task_status m id = "failed") :
    (∀ id2, get_background_task_status (cancel_background_task m id2).2 id =
      get_background_task_status m id) ∧
    cancel_background_task m id = ((false : Bool), m) ∧
    (∀ m2, get_background_task_status m2 id = "canceled" →
      get_background_task_status (bgCompleteTask m2 id) id = "completed" ∧
      get_background_task_status (bgFailTask m2 id) id = "failed") := by
  have hlook : m.lookup id = some (get_background_task_status m id) := by
    rcases hl : m.lookup id with _ | st
    · exfalso
      unfold get_background_task_status at hterm
      rw [hl] at hterm
      dsimp only at hterm
      rcases hterm with h | h <;> exact absurd h (by decide)
    · unfold get_background_task_status
      rw [hl]
  have hcan : cancel_background_task m id = ((false : Bool), m) := by
    unfold cancel_background_task
    rw [hlook]
    dsimp only
    rw [if_neg]
    intro habs
    rcases hterm with h | h <;> rw [h] at habs <;> exact absurd habs (by decide)
  refine ⟨?_, hcan, ?_⟩
  · intro id2
    by_cases hid : id2 = id
    · subst hid
      rw [hcan]
    · unfold cancel_background_task
      rcases hl2 : m.lookup id2 with _ | st2
      · rfl
      · dsimp only
        by_cases hst2 : st2 = "running"
        · subst hst2
          rw [if_pos rfl]
          unfold get_background_task_status
          rw [lookup_setTask_other m id2 id "canceled" (Ne.symm hid)]
        · rw [if_neg hst2]
  · intro m2 _
    unfold bgCompleteTask bgFailTask get_background_task_status
    rw [lookup_setTask_self, lookup_setTask_self]
    exact ⟨rfl, rfl⟩

theorem claim_C4_witness :
    (get_background_task_status [("t", "completed")] "t" = "completed" ∨
      get_background_task_status [("t", "completed")] "t" = "failed") ∧
    ((∀ id2, get_background_task_status
        (cancel_background_task [("t", "completed")] id2).2 "t" =
        get_background_task_status [("t", "completed")] "t") ∧
      cancel_background_task [("t", "completed")] "t" =
        ((false : Bool), [("t", "completed")]) ∧
      (∀ m2, get_background_task_status m2 "t" = "canceled" →
        get_background_task_status (bgCompleteTask m2 "t") "t" = "completed" ∧
        get_background_task_status (bgFailTask m2 "t") "t" = "failed")) := by
  refine ⟨Or.inl rfl, ?_⟩
  exact claim_C4_amended [("t", "completed")] "t" (Or.inl rfl)

theorem keyMatches_self (L F : ℕ) (s : ℝ) (st : String) (mf : List String) :
    keyMatches L F ⟨L, F, s, st, mf⟩ = true := by
  simp [keyMatches]

theorem find?_append_single (db : MatchDB) (p : MatchRec → Bool) (r : MatchRec)
    (hn : db.find? p = none) (hr : p r = true) :
    (db ++ [r]).find? p = some r := by
  induction db with
  | nil => simp [List.find?, hr]
  | cons h t ih =>
    rcases hph : p h with _ | _
    · rw [List.cons_append, List.find?_cons_of_neg _ (by simp [hph])]
      rw [List.find?_cons_of_neg _ (by simp [hph])] at hn
      exact ih hn
    · rw [List.find?_cons_of_pos _ hph] at hn
      cases hn

theorem find?_replaceFirst_self (db : MatchDB) (p : MatchRec → Bool)
    (r ex : MatchRec) (hex : db.find? p = some ex) (hr : p r = true) :
    (replaceFirst p r db).find? p = some r := by
  induction db with
  | nil => cases hex
  | cons h t ih =>
    unfold replaceFirst
    rcases hph : p h with _ | _
    · rw [if_neg (by simp [hph])]
      rw [List.find?_cons_of_neg _ (by simp [hph])] at hex
      rw [List.find?_cons_of_neg _ (by simp [hph])]
      exact ih hex
    · rw [if_pos (by simp [hph])]
      rw [List.find?_cons_of_pos _ hr]

/-- C6: the upsert creates a pending record when no (lost, found) record
exists, overwrites similarity and matching_features exactly when the new
similarity is strictly greater than the stored one, returns the stored record
unchanged otherwise, and therefore stores 0.8 after upserting 0.5 then 0.8 in
either order. -/
theorem claim_C6 (db : MatchDB) (L F : ℕ) (s1 : ℝ) (mf mf1 mf2 : List String)
    (ex : MatchRec) :
    (db.find? (keyMatches L F) = none →
      create_match db L F s1 mf =
        (⟨L, F, s1, "pending", mf⟩, db ++ [⟨L, F, s1, "pending", mf⟩])) ∧
    (db.find? (keyMatches L F) = some ex → ex.similarity < s1 →
      create_match db L F s1 mf =
        ({ ex with similarity := s1, matching_features := mf },
         replaceFirst (keyMatches L F)
           { ex with similarity := s1, matching_features := mf } db)) ∧
    (db.find? (keyMatches L F) = some ex → ¬ ex.similarity < s1 →
      create_match db L F s1 mf = (ex, db)) ∧
    (db.find? (keyMatches L F) = none →
      (((create_match (create_match db L F 0.5 mf1).2 L F 0.8 mf2).2.find?
          (keyMatches L F)).map MatchRec.similarity = some 0.8 ∧
       ((create_match (create_match db L F 0.8 mf1).2 L F 0.5 mf2).2.find?
          (keyMatches L F)).map MatchRec.similarity = some 0.8)) := by
  refine ⟨?_, ?_, ?_, ?_⟩
  · intro hn
    unfold create_match
    rw [hn]
  · intro hex hlt
    unfold create_match
    rw [hex]
    dsimp only
    rw [if_pos hlt]
  · intro hex hlt
    unfold create_match
    rw [hex]
    dsimp only
    rw [if_neg hlt]
  · intro hn
    constructor
    · have h1 : create_match db L F 0.5 mf1 =
          (⟨L, F, 0.5, "pending", mf1⟩, db ++ [⟨L, F, 0.5, "pending", mf1⟩]) := by
        unfold create_match
        rw [hn]
      rw [h1]
      have hf1 : (db ++ [(⟨L, F, 0.5, "pending", mf1⟩ : MatchRec)]).find?
          (keyMatches L F) = some ⟨L, F, 0.5, "pending", mf1⟩ :=
        find?_append_single db _ _ hn (keyMatches_self L F 0.5 "pending" mf1)
      have h2 : create_match (db ++ [(⟨L, F, 0.5, "pending", mf1⟩ : MatchRec)])
          L F 0.8 mf2 =
          (⟨L, F, 0.8, "pending", mf2⟩,
           replaceFirst (keyMatches L F) ⟨L, F, 0.8, "pending", mf2⟩
             (db ++ [⟨L, F, 0.5, "pending", mf1⟩])) := by
        unfold create_match
        rw [hf1]
        dsimp only
        rw [if_pos (by norm_num)]
      rw [h2]
      rw [find?_replaceFirst_self _ _ _ _ hf1 (keyMatches_self L F 0.8 "pending" mf2)]
      rfl
    · have h1 : create_match db L F 0.8 mf1 =
          (⟨L, F, 0.8, "pending", mf1⟩, db ++ [⟨L, F, 0.8, "pending", mf1⟩]) := by
        unfold create_match
        rw [hn]
      rw [h1]
      have hf1 : (db ++ [(⟨L, F, 0.8, "pending", mf1⟩ : MatchRec)]).find?
          (keyMatches L F) = some ⟨L, F, 0.8, "pending", mf1⟩ :=
        find?_append_single db _ _ hn (keyMatches_self L F 0.8 "pending" mf1)
      have h2 : create_match (db ++ [(⟨L, F, 0.8, "pending", mf1⟩ : MatchRec)])
          L F 0.5 mf2 =
          (⟨L, F, 0.8, "pending", mf1⟩, db ++ [⟨L, F, 0.8, "pending", mf1⟩]) := by
        unfold create_match
        rw [hf1]
        dsimp only
        rw [if_neg (by norm_num)]
      rw [h2, hf1]
      rfl

theorem claim_C6_witness :
    create_match [] 1 2 0.5 [] =
      (⟨1, 2, 0.5, "pending", []⟩, [⟨1, 2, 0.5, "pending", []⟩]) ∧
    ((create_match (create_match [] 1 2 0.5 []).2 1 2 0.8 []).2.find?
        (keyMatches 1 2)).map MatchRec.similarity = some 0.8 ∧
    ((create_match (create_match [] 1 2 0.8 []).2 1 2 0.5 []).2.find?
        (keyMatches 1 2)).map MatchRec.similarity = some 0.8 := by
  have h := claim_C6 [] 1 2 0.5 [] [] [] ⟨0, 0, 0, "", []⟩
  exact ⟨h.1 rfl, (h.2.2.2 rfl).1, (h.2.2.2 rfl).2⟩

theorem insertDesc_perm (c : Comparison) (s : List Comparison) :
    (insertDesc c s).Perm (c :: s) := by
  induction s with
  | nil => exact List.Perm.refl _
  | cons h t ih =>
    unfold insertDesc
    split_ifs
    · exact (ih.cons h).trans (List.Perm.swap c h t)
    · exact List.Perm.refl _

theorem sortByOverallDesc_perm (l : List Comparison) :
    (sortByOverallDesc l).Perm l := by
  induction l with
  | nil => exact List.Perm.refl _
  | cons x t ih =>
    have hstep : sortByOverallDesc (x :: t) = insertDesc x (sortByOverallDesc t) := rfl
    rw [hstep]
    exact (insertDesc_perm x (sortByOverallDesc t)).trans (ih.cons x)

theorem rankedBefore_overall_le (a b : Comparison) (h : rankedBefore a b) :
    b.similarity.overall ≤ a.similarity.overall := by
  rcases h with h | ⟨h, _⟩
  · exact h.le
  · exact h.ge

theorem insertDesc_pairwise (c : Comparison) (s : List Comparison)
    (hs : s.Pairwise rankedBefore)
    (hidx : ∀ y ∈ s, c.target_index < y.target_index) :
    (insertDesc c s).Pairwise rankedBefore := by
  induction s with
  | nil => exact List.pairwise_singleton _ _
  | cons h t ih =>
    rw [List.pairwise_cons] at hs
    unfold insertDesc
    split_ifs with hlt
    · rw [List.pairwise_cons]
      constructor
      · intro y hy
        have hy2 := (insertDesc_perm c t).mem_iff.mp hy
        rcases List.mem_cons.mp hy2 with rfl | hyt
        · exact Or.inl hlt
        · exact hs.1 y hyt
      · exact ih hs.2 fun y hy => hidx y (List.mem_cons_of_mem h hy)
    · rw [List.pairwise_cons]
      constructor
      · intro y hy
        rcases List.mem_cons.mp hy with rfl | hyt
        · push_neg at hlt
          rcases lt_or_eq_of_le hlt with h2 | h2
          · exact Or.inl h2
          · exact Or.inr ⟨h2.symm, hidx y (List.mem_cons_self _ _)⟩
        · push_neg at hlt
          have hyh := rankedBefore_overall_le h y (hs.1 y hyt)
          rcases lt_or_eq_of_le (hyh.trans hlt) with h2 | h2
          · exact Or.inl h2
          · exact Or.inr ⟨h2.symm, hidx y (List.mem_cons_of_mem h hyt)⟩
      · rw [List.pairwise_cons]
        exact hs

theorem sortByOverallDesc_pairwise (l : List Comparison)
    (hl : l.Pairwise fun a b => a.target_index < b.target_index) :
    (sortByOverallDesc l).Pairwise rankedBefore := by
  induction l with
  | nil => exact List.Pairwise.nil
  | cons x t ih =>
    rw [List.pairwise_cons] at hl
    have hstep : sortByOverallDesc (x :: t) = insertDesc x (sortByOverallDesc t) := rfl
    rw [hstep]
    apply insertDesc_pairwise x (sortByOverallDesc t) (ih hl.2)
    intro y hy
    exact hl.1 y ((sortByOverallDesc_perm t).mem_iff.mp hy)

theorem scoreCandidate_some (geo : GeoPoint → GeoPoint → ℝ) (cfg : CVConfig)
    (fw : Weights) (source : Vec) (sa : Option PetAttrs)
    (tal : Option (List (Option PetAttrs))) (ld : Option LocationData)
    (dd : Option DateData) (i : ℕ) (t : Vec) (c : Comparison)
    (h : scoreCandidate geo cfg fw source sa tal ld dd i t = some c) :
    c.target_index = i ∧ cfg.similarity_threshold ≤ c.similarity.overall := by
  unfold scoreCandidate at h
  dsimp only at h
  rcases hcp : compare_pets geo (some source) (some t) sa (pickAttrs tal i)
      (locPair ld i).1 (locPair ld i).2 (datePair dd i).1 (datePair dd i).2
      (some fw) with e | sim
  · rw [hcp] at h
    cases h
  · rw [hcp] at h
    dsimp only at h
    split_ifs at h with hth
    cases h
    exact ⟨rfl, hth⟩

theorem compareLoop_spec (geo : GeoPoint → GeoPoint → ℝ) (cfg : CVConfig)
    (fw : Weights) (source : Vec) (sa : Option PetAttrs)
    (tal : Option (List (Option PetAttrs))) (ld : Option LocationData)
    (dd : Option DateData) : ∀ (ts : List Vec) (i : ℕ),
    (∀ c ∈ compareLoop geo cfg fw source sa tal ld dd i ts,
       cfg.similarity_threshold ≤ c.similarity.overall ∧ i ≤ c.target_index) ∧
    (compareLoop geo cfg fw source sa tal ld dd i ts).Pairwise
      (fun a b => a.target_index < b.target_index) ∧
    (compareLoop geo cfg fw source sa tal ld dd i ts).length ≤ ts.length := by
  intro ts
  induction ts with
  | nil =>
    intro i
    refine ⟨?_, List.Pairwise.nil, ?_⟩
    · intro c hc
      simp [compareLoop] at hc
    · simp [compareLoop]
  | cons t rest ih =>
    intro i
    obtain ⟨ihmem, ihpw, ihlen⟩ := ih (i + 1)
    unfold compareLoop
    rcases hsc : scoreCandidate geo cfg fw source sa tal ld dd i t with _ | c0
    · refine ⟨?_, ihpw, ?_⟩
      · intro c hc
        obtain ⟨hth, hge⟩ := ihmem c hc
        exact ⟨hth, (Nat.le_succ i).trans hge⟩
      · exact ihlen.trans (Nat.le_succ _)
    · obtain ⟨hidx, hth⟩ := scoreCandidate_some geo cfg fw source sa tal ld dd i t c0 hsc
      refine ⟨?_, ?_, ?_⟩
      · intro c hc
        rcases List.mem_cons.mp hc with rfl | hc2
        · exact ⟨hth, hidx.ge⟩
        · obtain ⟨hth2, hge2⟩ := ihmem c hc2
          exact ⟨hth2, (Nat.le_succ i).trans hge2⟩
      · rw [List.pairwise_cons]
        refine ⟨?_, ihpw⟩
        intro c hc
        obtain ⟨_, hge⟩ := ihmem c hc
        rw [hidx]
        exact lt_of_lt_of_le (Nat.lt_succ_self i) hge
      · simpa using Nat.succ_le_succ ihlen

theorem compare_images_main (geo : GeoPoint → GeoPoint → ℝ) (cfg : CVConfig)
    (src : Vec) (targets : List Vec) (sa : Option PetAttrs)
    (tal : Option (List (Option PetAttrs))) (ld : Option LocationData)
    (dd : Option DateData) (fwopt : Option Weights)
    (hsrc : src ≠ []) (htgt : targets ≠ []) :
    compare_images geo cfg src targets sa tal ld dd fwopt =
      match prepWeights cfg.default_weights fwopt with
      | .error e => .error e
      | .ok fw =>
        .ok ⟨sortByOverallDesc (compareLoop geo cfg fw src sa tal ld dd 0 targets),
          ⟨targets.length,
           (sortByOverallDesc (compareLoop geo cfg fw src sa tal ld dd 0 targets)).length,
           false⟩⟩ := by
  unfold compare_images
  rw [if_neg]
  intro habs
  rcases habs with h | h
  · exact hsrc h
  · exact htgt h

/-- C7: every comparison a successful, non-error compare_images returns
scores at or above the similarity threshold; the list is sorted by overall
descending with equal-overall ties in candidate input order; and the
metadata reports the full input count as total_candidates_considered and the
returned list length as filtered_candidates. -/
theorem claim_C7 (geo : GeoPoint → GeoPoint → ℝ) (cfg : CVConfig) (src : Vec)
    (targets : List Vec) (sa : Option PetAttrs)
    (tal : Option (List (Option PetAttrs))) (ld : Option LocationData)
    (dd : Option DateData) (fwopt : Option Weights) (r : CompareImagesResult)
    (hok : compare_images geo cfg src targets sa tal ld dd fwopt = .ok r)
    (herr : r.search_metadata.error_occurred = false) :
    (∀ c ∈ r.comparisons, cfg.similarity_threshold ≤ c.similarity.overall) ∧
    r.comparisons.Pairwise rankedBefore ∧
    r.search_metadata.total_candidates_considered = targets.length ∧
    r.search_metadata.filtered_candidates = r.comparisons.length := by
  by_cases hempty : src = [] ∨ targets = []
  · unfold compare_images at hok
    rw [if_pos hempty] at hok
    cases hok
    cases herr
  · push_neg at hempty
    rw [compare_images_main geo cfg src targets sa tal ld dd fwopt
      hempty.1 hempty.2] at hok
    rcases hpw : prepWeights cfg.default_weights fwopt with e | fw
    · rw [hpw] at hok
      cases hok
    · rw [hpw] at hok
      dsimp only at hok
      cases hok
      obtain ⟨hmem, hpw2, _⟩ := compareLoop_spec geo cfg fw src sa tal ld dd targets 0
      refine ⟨?_, ?_, rfl, rfl⟩
      · intro c hc
        exact (hmem c ((sortByOverallDesc_perm _).mem_iff.mp hc)).1
      · exact sortByOverallDesc_pairwise _ hpw2

theorem prepWeights_eval : prepWeights default_weights none = .ok default_weights := by
  show normWeights default_weights = .ok default_weights
  exact normWeights_default

theorem scoreCandidate_eval_ones (geo : GeoPoint → GeoPoint → ℝ) (i : ℕ) :
    scoreCandidate geo stdConfig default_weights [1] none none none none i [1] =
      some ⟨i, ⟨1, 0, 0, 0, 0.6⟩, []⟩ := by
  unfold scoreCandidate
  dsimp only
  have hcp : compare_pets geo (some [1]) (some [1]) none (pickAttrs none i)
      (locPair none i).1 (locPair none i).2 (datePair none i).1
      (datePair none i).2 (some default_weights) = .ok ⟨1, 0, 0, 0, 0.6⟩ := by
    show compare_pets geo (some [1]) (some [1]) none none none none none none
      (some default_weights) = .ok ⟨1, 0, 0, 0, 0.6⟩
    have h := compare_pets_eval_defaultw geo [1] [1] rfl
    rw [cosine_one_one] at h
    rw [show (0.6 : ℝ) * 1 = 0.6 by norm_num] at h
    exact h
  rw [hcp]
  dsimp only
  rw [if_pos]
  show stdConfig.similarity_threshold ≤ (0.6 : ℝ)
  norm_num [stdConfig]

theorem loop_ones_len (geo : GeoPoint → GeoPoint → ℝ) :
    ∀ (n i : ℕ), (compareLoop geo stdConfig default_weights [1] none none none
      none i (List.replicate n [1])).length = n := by
  intro n
  induction n with
  | zero => intro i; simp [compareLoop]
  | succ n ih =>
    intro i
    rw [List.replicate_succ]
    unfold compareLoop
    rw [scoreCandidate_eval_ones]
    rw [List.length_cons, ih]

/-- C5 is false as stated: compare_images takes no maximum-result-count
argument and performs no truncation — with six candidates all passing the
threshold it returns all six comparisons, more than the repository's only
result cap (the max_results default of 5 in format_api_results). -/
theorem claim_C5_counterexample :
    (compare_images (fun _ _ => 0) stdConfig [1] (List.replicate 6 [1]) none
        none none none none).map (fun r => r.comparisons.length) = .ok 6 ∧
    ¬ (6 ≤ 5) := by
  constructor
  · rw [compare_images_main (fun _ _ => 0) stdConfig [1] (List.replicate 6 [1])
      none none none none none (by simp) (by simp)]
    rw [show prepWeights stdConfig.default_weights none = .ok default_weights
      from prepWeights_eval]
    dsimp only [Except.map]
    rw [(sortByOverallDesc_perm _).length_eq, loop_ones_len]
  · norm_num

/-- C5 (amended): compare_images accepts no maximum result count and never
truncates — its comparisons list is a permutation of (hence exactly as long
as) the per-candidate filter output, which holds every threshold-passing
candidate; the only truncation in the service is the matches[:max_results]
slice inside format_api_results, whose output length never exceeds
max_results (default 5). -/
theorem claim_C5_amended (geo : GeoPoint → GeoPoint → ℝ) (cfg : CVConfig)
    (src : Vec) (targets : List Vec) (sa : Option PetAttrs)
    (tal : Option (List (Option PetAttrs))) (ld : Option LocationData)
    (dd : Option DateData) (fwopt : Option Weights) (fw : Weights)
    (r : CompareImagesResult)
    (hsrc : src ≠ []) (htgt : targets ≠ [])
    (hpw : prepWeights cfg.default_weights fwopt = .ok fw)
    (hok : compare_images geo cfg src targets sa tal ld dd fwopt = .ok r) :
    r.comparisons.Perm (compareLoop geo cfg fw src sa tal ld dd 0 targets) ∧
    r.comparisons.length =
      (compareLoop geo cfg fw src sa tal ld dd 0 targets).length ∧
    (∀ (ms : List Comparison) (max_results : ℕ),
      (format_api_results_comparisons ms max_results).length ≤ max_results) := by
  rw [compare_images_main geo cfg src targets sa tal ld dd fwopt hsrc htgt] at hok
  rw [hpw] at hok
  dsimp only at hok
  cases hok
  refine ⟨sortByOverallDesc_perm _, (sortByOverallDesc_perm _).length_eq, ?_⟩
  intro ms max_results
  unfold format_api_results_comparisons
  rw [List.length_take]
  exact min_le_left _ _

theorem claim_C5_witness :
    (([1] : Vec) ≠ [] ∧ List.replicate 6 ([1] : Vec) ≠ []) ∧
    ((sortByOverallDesc (compareLoop (fun _ _ => 0) stdConfig default_weights
        [1] none none none none 0 (List.replicate 6 [1]))).Perm
      (compareLoop (fun _ _ => 0) stdConfig default_weights [1] none none none
        none 0 (List.replicate 6 [1])) ∧
     (sortByOverallDesc (compareLoop (fun _ _ => 0) stdConfig default_weights
        [1] none none none none 0 (List.replicate 6 [1]))).length =
      (compareLoop (fun _ _ => 0) stdConfig default_weights [1] none none none
        none 0 (List.replicate 6 [1])).length ∧
     (∀ (ms : List Comparison) (max_results : ℕ),
       (format_api_results_comparisons ms max_results).length ≤ max_results)) := by
  refine ⟨⟨by simp, by simp⟩, ?_⟩
  have hok : compare_images (fun _ _ => 0) stdConfig [1] (List.replicate 6 [1])
      none none none none none =
      .ok ⟨sortByOverallDesc (compareLoop (fun _ _ => 0) stdConfig
          default_weights [1] none none none none 0 (List.replicate 6 [1])),
        ⟨(List.replicate 6 ([1] : Vec)).length,
         (sortByOverallDesc (compareLoop (fun _ _ => 0) stdConfig
           default_weights [1] none none none none 0
           (List.replicate 6 [1]))).length, false⟩⟩ := by
    rw [compare_images_main (fun _ _ => 0) stdConfig [1] (List.replicate 6 [1])
      none none none none none (by simp) (by simp)]
    rw [show prepWeights stdConfig.default_weights none = .ok default_weights
      from prepWeights_eval]
  exact claim_C5_amended (fun _ _ => 0) stdConfig [1] (List.replicate 6 [1])
    none none none none none default_weights _ (by simp) (by simp)
    prepWeights_eval hok

theorem claim_C7_witness :
    ((∀ c ∈ (Except.ok (⟨[⟨0, ⟨1, 0, 0, 0, 0.6⟩, []⟩],
        ⟨1, 1, false⟩⟩ : CompareImagesResult) : Except PyErr CompareImagesResult).toOption.getD
          ⟨[], ⟨0, 0, true⟩⟩ |>.comparisons,
      stdConfig.similarity_threshold ≤ c.similarity.overall)) ∧
    ([(⟨0, ⟨1, 0, 0, 0, 0.6⟩, []⟩ : Comparison)].Pairwise rankedBefore) := by
  have hloop : compareLoop (fun _ _ => 0) stdConfig default_weights [1] none
      none none none 0 [[1]] = [⟨0, ⟨1, 0, 0, 0, 0.6⟩, []⟩] := by
    unfold compareLoop
    rw [scoreCandidate_eval_ones]
    rfl
  have hok : compare_images (fun _ _ => 0) stdConfig [1] [[1]] none none none
      none none = .ok ⟨[⟨0, ⟨1, 0, 0, 0, 0.6⟩, []⟩], ⟨1, 1, false⟩⟩ := by
    rw [compare_images_main (fun _ _ => 0) stdConfig [1] [[1]] none none none
      none none (by simp) (by simp)]
    rw [show prepWeights stdConfig.default_weights none = .ok default_weights
      from prepWeights_eval]
    dsimp only
    rw [hloop]
    rfl
  have h := claim_C7 (fun _ _ => 0) stdConfig [1] [[1]] none none none none
    none ⟨[⟨0, ⟨1, 0, 0, 0, 0.6⟩, []⟩], ⟨1, 1, false⟩⟩ hok rfl
  exact ⟨h.1, h.2.1⟩

theorem compareLoop_nil (geo : GeoPoint → GeoPoint → ℝ) (cfg : CVConfig)
    (fw : Weights) (source : Vec) (sa : Option PetAttrs)
    (tal : Option (List (Option PetAttrs))) (ld : Option LocationData)
    (dd : Option DateData) (i : ℕ) :
    compareLoop geo cfg fw source sa tal ld dd i [] = [] := rfl

theorem compareLoop_cons (geo : GeoPoint → GeoPoint → ℝ) (cfg : CVConfig)
    (fw : Weights) (source : Vec) (sa : Option PetAttrs)
    (tal : Option (List (Option PetAttrs))) (ld : Option LocationData)
    (dd : Option DateData) (i : ℕ) (t : Vec) (ts : List Vec) :
    compareLoop geo cfg fw source sa tal ld dd i (t :: ts) =
      (match scoreCandidate geo cfg fw source sa tal ld dd i t with
       | some c => [c]
       | none => []) ++ compareLoop geo cfg fw source sa tal ld dd (i + 1) ts := by
  conv_lhs => rw [compareLoop]
  rcases scoreCandidate geo cfg fw source sa tal ld dd i t with _ | c <;> rfl

theorem compare_pets_mismatch (geo : GeoPoint → GeoPoint → ℝ) (f1 f2 : Vec)
    (a1 a2 : Option PetAttrs) (l1 l2 : Option GeoPoint) (d1 d2 : Option ℤ)
    (w : Option Weights) (hne : f1.length ≠ f2.length) :
    compare_pets geo (some f1) (some f2) a1 a2 l1 l2 d1 d2 w = .ok zeroScores := by
  unfold compare_pets
  dsimp only
  rw [if_pos hne]

theorem scoreCandidate_mismatch (geo : GeoPoint → GeoPoint → ℝ) (cfg : CVConfig)
    (fw : Weights) (source : Vec) (sa : Option PetAttrs)
    (tal : Option (List (Option PetAttrs))) (ld : Option LocationData)
    (dd : Option DateData) (i : ℕ) (t : Vec)
    (hne : source.length ≠ t.length) (hth : 0 < cfg.similarity_threshold) :
    scoreCandidate geo cfg fw source sa tal ld dd i t = none := by
  unfold scoreCandidate
  dsimp only
  rw [compare_pets_mismatch geo source t sa (pickAttrs tal i) (locPair ld i).1
    (locPair ld i).2 (datePair dd i).1 (datePair dd i).2 (some fw) hne]
  dsimp only
  rw [if_neg]
  show ¬ cfg.similarity_threshold ≤ zeroScores.overall
  simp only [zeroScores]
  exact not_le.mpr hth

/-- C8: with a 512-dimensional source and candidates of dimensions 512, 512
and 256, a successful ranking call returns at most 2 comparisons, counts all
3 candidates in total_candidates_considered, never includes the
mismatched-dimension candidate (input index 2) in its output, and the
mismatched pair itself scores as the all-zero ComparisonResult without
raising, whatever attributes, locations, dates or weights accompany it. -/
theorem claim_C8 (geo : GeoPoint → GeoPoint → ℝ) (src t1 t2 t3 : Vec)
    (sa : Option PetAttrs) (tal : Option (List (Option PetAttrs)))
    (ld : Option LocationData) (dd : Option DateData) (r : CompareImagesResult)
    (h0 : src.length = 512) (h1 : t1.length = 512) (h2 : t2.length = 512)
    (h3 : t3.length = 256)
    (hok : compare_images geo stdConfig src [t1, t2, t3] sa tal ld dd none = .ok r) :
    r.comparisons.length ≤ 2 ∧
    r.search_metadata.total_candidates_considered = 3 ∧
    (∀ c ∈ r.comparisons, c.target_index ≠ 2) ∧
    (∀ (a1 a2 : Option PetAttrs) (l1 l2 : Option GeoPoint) (d1 d2 : Option ℤ)
      (w : Option Weights),
      compare_pets geo (some src) (some t3) a1 a2 l1 l2 d1 d2 w = .ok zeroScores) := by
  have hmis : src.length ≠ t3.length := by rw [h0, h3]; norm_num
  have hsrc : src ≠ [] := by
    intro habs
    rw [habs] at h0
    simp at h0
  rw [compare_images_main geo stdConfig src [t1, t2, t3] sa tal ld dd none
    hsrc (by simp)] at hok
  rw [show prepWeights stdConfig.default_weights none = .ok default_weights
    from prepWeights_eval] at hok
  dsimp only at hok
  cases hok
  have hsc2 : scoreCandidate geo stdConfig default_weights src sa tal ld dd 2 t3 =
      none :=
    scoreCandidate_mismatch geo stdConfig default_weights src sa tal ld dd 2 t3
      hmis (by norm_num [stdConfig])
  have hloop : compareLoop geo stdConfig default_weights src sa tal ld dd 0
      [t1, t2, t3] =
      (match scoreCandidate geo stdConfig default_weights src sa tal ld dd 0 t1 with
       | some c => [c]
       | none => []) ++
      (match scoreCandidate geo stdConfig default_weights src sa tal ld dd 1 t2 with
       | some c => [c]
       | none => []) := by
    rw [compareLoop_cons, compareLoop_cons, compareLoop_cons]
    norm_num
    constructor
    · rw [hsc2]
    · exact compareLoop_nil geo stdConfig default_weights src sa tal ld dd 3
  refine ⟨?_, rfl, ?_, ?_⟩
  · rw [(sortByOverallDesc_perm _).length_eq, hloop]
    rcases hs0 : scoreCandidate geo stdConfig default_weights src sa tal ld dd 0 t1 with _ | c0 <;>
      rcases hs1 : scoreCandidate geo stdConfig default_weights src sa tal ld dd 1 t2 with _ | c1 <;>
      simp
  · intro c hc
    have hc2 : c ∈ compareLoop geo stdConfig default_weights src sa tal ld dd 0
        [t1, t2, t3] := (sortByOverallDesc_perm _).mem_iff.mp hc
    rw [hloop] at hc2
    rcases List.mem_append.mp hc2 with hm | hm
    · revert hm
      rcases hs0 : scoreCandidate geo stdConfig default_weights src sa tal ld dd 0 t1 with _ | c0
      · intro hm; cases hm
      · intro hm
        simp only [List.mem_singleton] at hm
        subst hm
        have := (scoreCandidate_some geo stdConfig default_weights src sa tal
          ld dd 0 t1 c hs0).1
        rw [this]
        norm_num
    · revert hm
      rcases hs1 : scoreCandidate geo stdConfig default_weights src sa tal ld dd 1 t2 with _ | c1
      · intro hm; cases hm
      · intro hm
        simp only [List.mem_singleton] at hm
        subst hm
        have := (scoreCandidate_some geo stdConfig default_weights src sa tal
          ld dd 1 t2 c hs1).1
        rw [this]
        norm_num
  · intro a1 a2 l1 l2 d1 d2 w
    exact compare_pets_mismatch geo src t3 a1 a2 l1 l2 d1 d2 w hmis

theorem replicate_vec_ne_nil (n : ℕ) (hn : 0 < n) :
    List.replicate n (1 : ℝ) ≠ [] := by
  apply List.length_pos.mp
  rw [List.length_replicate]
  exact hn

theorem claim_C8_witness :
    ((List.replicate 512 (1 : ℝ)).length = 512 ∧
     (List.replicate 256 (1 : ℝ)).length = 256) ∧
    ((sortByOverallDesc (compareLoop (fun _ _ => 0) stdConfig default_weights
        (List.replicate 512 1) none none none none 0
        [List.replicate 512 1, List.replicate 512 1,
         List.replicate 256 1])).length ≤ 2 ∧
     (∀ (a1 a2 : Option PetAttrs) (l1 l2 : Option GeoPoint) (d1 d2 : Option ℤ)
       (w : Option Weights),
       compare_pets (fun _ _ => 0) (some (List.replicate 512 1))
         (some (List.replicate 256 1)) a1 a2 l1 l2 d1 d2 w = .ok zeroScores)) := by
  refine ⟨⟨List.length_replicate 512 1, List.length_replicate 256 1⟩, ?_⟩
  have hok : compare_images (fun _ _ => 0) stdConfig (List.replicate 512 1)
      [List.replicate 512 1, List.replicate 512 1, List.replicate 256 1]
      none none none none none =
      .ok ⟨sortByOverallDesc (compareLoop (fun _ _ => 0) stdConfig
          default_weights (List.replicate 512 1) none none none none 0
          [List.replicate 512 1, List.replicate 512 1, List.replicate 256 1]),
        ⟨3, (sortByOverallDesc (compareLoop (fun _ _ => 0) stdConfig
          default_weights (List.replicate 512 1) none none none none 0
          [List.replicate 512 1, List.replicate 512 1,
           List.replicate 256 1])).length, false⟩⟩ := by
    rw [compare_images_main (fun _ _ => 0) stdConfig (List.replicate 512 1)
      [List.replicate 512 1, List.replicate 512 1, List.replicate 256 1]
      none none none none none (replicate_vec_ne_nil 512 (by norm_num))
      (by simp)]
    rw [show prepWeights stdConfig.default_weights none = .ok default_weights
      from prepWeights_eval]
    rfl
  have h := claim_C8 (fun _ _ => 0) (List.replicate 512 1)
    (List.replicate 512 1) (List.replicate 512 1) (List.replicate 256 1)
    none none none none _ (List.length_replicate 512 1)
    (List.length_replicate 512 1) (List.length_replicate 512 1)
    (List.length_replicate 256 1) hok
  exact ⟨h.1, h.2.2.2⟩

theorem specSharedParts_eq (a1 a2 : PetAttrs) :
    specSharedParts a1 a2 = attributeParts a1 a2 := rfl

theorem attributeScore_eq_spec (a1 a2 : PetAttrs) :
    attributeScore a1 a2 = spec_attribute_score a1 a2 := by
  unfold attributeScore spec_attribute_score
  rw [specSharedParts_eq]
  by_cases h : attributeParts a1 a2 = []
  · rw [if_pos h, h]
    simp
  · rw [if_neg h]
    have hlen : 1 ≤ ((attributeParts a1 a2).length : ℝ) := by
      have := List.length_pos.mpr h
      exact_mod_cast this
    rw [max_eq_right hlen]

theorem truthy_false_nil (a b : PetAttrs) (h : truthy (some a) = false) :
    attributeParts a b = [] ∧ attributeParts b a = [] := by
  simp only [truthy, Bool.or_eq_false_iff] at h
  obtain ⟨⟨⟨hb, hc⟩, ha⟩, hs⟩ := h
  have hb2 : a.breed = none := by
    rcases hab : a.breed with _ | v
    · rfl
    · rw [hab] at hb; simp at hb
  have hc2 : a.colors = none := by
    rcases hab : a.colors with _ | v
    · rfl
    · rw [hab] at hc; simp at hc
  have ha2 : a.estimated_age = none := by
    rcases hab : a.estimated_age with _ | v
    · rfl
    · rw [hab] at ha; simp at ha
  have hs2 : a.estimated_size = none := by
    rcases hab : a.estimated_size with _ | v
    · rfl
    · rw [hab] at hs; simp at hs
  unfold attributeParts
  rw [hb2, hc2, ha2, hs2]
  constructor <;>
    rcases b.breed with _ | v1 <;> rcases b.colors with _ | v2 <;>
    rcases b.estimated_age with _ | v3 <;> rcases b.estimated_size with _ | v4 <;>
    rfl

theorem pyAttrScore_some_eq_spec (a1 a2 : PetAttrs) :
    pyAttrScore (some a1) (some a2) = spec_attribute_score a1 a2 := by
  unfold pyAttrScore
  split_ifs with h
  · simp only [Option.getD_some]
    exact attributeScore_eq_spec a1 a2
  · rw [Bool.and_eq_true, not_and_or] at h
    have hnil : specSharedParts a1 a2 = [] := by
      rw [specSharedParts_eq]
      rcases h with h | h
      · exact (truthy_false_nil a1 a2 (Bool.not_eq_true _ ▸ Bool.eq_false_iff.mpr
          fun habs => h habs)).1
      · exact (truthy_false_nil a2 a1 (Bool.not_eq_true _ ▸ Bool.eq_false_iff.mpr
          fun habs => h habs)).2
    unfold spec_attribute_score
    rw [if_pos hnil]

theorem spec_example_score :
    spec_attribute_score exampleSourceAttrs exampleCandidateAttrs = 0.75 := by
  have hco : colorOverlap ["black"] ["brown"] = false := by decide
  have hparts : specSharedParts exampleSourceAttrs exampleCandidateAttrs =
      [1, 0, 1, 1] := by
    unfold specSharedParts exampleSourceAttrs exampleCandidateAttrs
    norm_num [hco]
  unfold spec_attribute_score
  rw [hparts]
  rw [if_neg (by simp)]
  norm_num

theorem compare_pets_ok_attr (geo : GeoPoint → GeoPoint → ℝ) (f1 f2 : Vec)
    (a1 a2 : Option PetAttrs) (l1 l2 : Option GeoPoint) (d1 d2 : Option ℤ)
    (w : Option Weights) (s : Scores) (hlen : f1.length = f2.length)
    (hok : compare_pets geo (some f1) (some f2) a1 a2 l1 l2 d1 d2 w = .ok s) :
    s.attrScore = pyAttrScore a1 a2 := by
  rw [compare_pets_main geo f1 f2 a1 a2 l1 l2 d1 d2 w hlen] at hok
  rcases hnw : normWeights (fillWeights (w.getD default_weights)) with e | w2
  · rw [hnw] at hok
    cases hok
  · rw [hnw] at hok
    dsimp only at hok
    rcases hov : overallSum (cosine_similarity f1 f2) (pyAttrScore a1 a2)
        (pyLocScore geo l1 l2) (pyTimeScore d1 d2) w2 with e | o
    · rw [hov] at hok
      cases hok
    · rw [hov] at hok
      dsimp only at hok
      cases hok
      rfl

/-- C10: the attribute sub-score of the scorer equals the spec's
shared-component average — breed exact-name 1.0 else 0.0, colors 1.0 on any
shared name else 0.0, age and size 1.0 on equality else 0.5, averaged over
the components present on both sides, with score 0 and no division by zero
when nothing is shared — and the end-to-end example (identical Labrador
attributes except colors black vs brown) scores exactly 0.75. -/
theorem claim_C10 (geo : GeoPoint → GeoPoint → ℝ) (f1 f2 : Vec)
    (hlen : f1.length = f2.length) (a1 a2 : PetAttrs) (s s2 : Scores)
    (hok : compare_pets geo (some f1) (some f2) (some a1) (some a2) none none
      none none none = .ok s)
    (hex : compare_pets geo (some f1) (some f2) (some exampleSourceAttrs)
      (some exampleCandidateAttrs) none none none none none = .ok s2) :
    s.attrScore = spec_attribute_score a1 a2 ∧
    (attributeParts a1 a2 = [] → s.attrScore = 0) ∧
    s2.attrScore = 0.75 := by
  have h1 : s.attrScore = spec_attribute_score a1 a2 :=
    (compare_pets_ok_attr geo f1 f2 (some a1) (some a2) none none none none
      none s hlen hok).trans (pyAttrScore_some_eq_spec a1 a2)
  refine ⟨h1, ?_, ?_⟩
  · intro hnil
    rw [h1]
    unfold spec_attribute_score
    rw [if_pos (by rw [specSharedParts_eq]; exact hnil)]
  · exact (compare_pets_ok_attr geo f1 f2 (some exampleSourceAttrs)
      (some exampleCandidateAttrs) none none none none none s2 hlen hex).trans
      ((pyAttrScore_some_eq_spec _ _).trans spec_example_score)

/-- Evaluation of compare_pets with attribute dictionaries and no locations,
dates or caller weights. -/
theorem compare_pets_eval_attrs (geo : GeoPoint → GeoPoint → ℝ) (f1 f2 : Vec)
    (a1 a2 : PetAttrs) (hlen : f1.length = f2.length) :
    compare_pets geo (some f1) (some f2) (some a1) (some a2) none none none
      none none =
      .ok ⟨cosine_similarity f1 f2, pyAttrScore (some a1) (some a2), 0, 0,
        0.6 * cosine_similarity f1 f2 +
          0.2 * pyAttrScore (some a1) (some a2)⟩ := by
  rw [compare_pets_main geo f1 f2 (some a1) (some a2) none none none none
    none hlen]
  simp only [Option.getD_none]
  rw [fillWeights_default, normWeights_default]
  dsimp only
  rw [overallSum_default]
  dsimp only
  simp only [pyLocScore, pyTimeScore, Except.ok.injEq, Scores.mk.injEq]
  norm_num

theorem claim_C10_witness :
    (⟨1, 0.75, 0, 0, 0.75⟩ : Scores).attrScore =
      spec_attribute_score exampleSourceAttrs exampleCandidateAttrs ∧
    (attributeParts exampleSourceAttrs exampleCandidateAttrs = [] →
      (⟨1, 0.75, 0, 0, 0.75⟩ : Scores).attrScore = 0) ∧
    (⟨1, 0.75, 0, 0, 0.75⟩ : Scores).attrScore = 0.75 := by
  have hpy : pyAttrScore (some exampleSourceAttrs) (some exampleCandidateAttrs) =
      0.75 := (pyAttrScore_some_eq_spec _ _).trans spec_example_score
  have hok : compare_pets (fun _ _ => 0) (some [1]) (some [1])
      (some exampleSourceAttrs) (some exampleCandidateAttrs) none none none
      none none = .ok ⟨1, 0.75, 0, 0, 0.75⟩ := by
    have h := compare_pets_eval_attrs (fun _ _ => 0) [1] [1]
      exampleSourceAttrs exampleCandidateAttrs rfl
    rw [cosine_one_one, hpy] at h
    rw [show (0.6 : ℝ) * 1 + 0.2 * 0.75 = 0.75 by norm_num] at h
    exact h
  exact claim_C10 (fun _ _ => 0) [1] [1] rfl exampleSourceAttrs
    exampleCandidateAttrs ⟨1, 0.75, 0, 0, 0.75⟩ ⟨1, 0.75, 0, 0, 0.75⟩ hok hok

theorem claim_C2_witness :
    ((⟨[], 0⟩ : NotifyState).db = [] ∧ (⟨[], 0⟩ : NotifyState).notifications_created = 0) ∧
    ([(⟨1, 0.9, []⟩ : MatchData)] ≠ ([] : List MatchData) ∧
     getattr_match_repo "get_by_pet_ids" = .error (.attrErr "get_by_pet_ids") ∧
     notify_about_matches 0 ⟨[], 0⟩ [⟨1, 0.9, []⟩] = ⟨[], 0⟩) := by
  refine ⟨⟨rfl, rfl⟩, by simp, ?_⟩
  exact claim_C2 0 ⟨[], 0⟩ [⟨1, 0.9, []⟩] (by simp)

end

end PetRadar
